import Mathlib

/-!
Verification development for the SOCKS5 local proxy in `src/local.c`
(a libuv based, single threaded, callback driven TCP proxy).

The development is a shallow embedding of the per-connection session
logic of `local.c`:

* the byte-level reply builders (`client_write_error`, the success reply
  assembled in `upstream_connect_cb`);
* the candidate-iteration loop of `upstream_connect_domain`;
* the close/release protocol (`close_session`, `schedule_release_timer`,
  `release_timer_cb`, `release_timer_handle_close_cb`) together with a
  small model of the libuv handle/queue semantics it relies on;
* the session event machine: each libuv completion callback of `local.c`
  (`on_client_read_done`, `on_client_write_done`, `on_upstream_read_done`,
  `on_upstream_write_done`, `upstream_connect_cb`,
  `upstream_connect_domain`) is transcribed as a transition on an explicit
  session state, and reachability invariants are proved about the
  resulting transition system.

The SOCKS5 decoder (`socks5.c` / `socks5.h`) is not part of the sources;
where its behaviour is needed it is modelled from the specification
(section 4.1) and marked as such.
-/

set_option autoImplicit false

namespace Lightning

/-! ### Error code constants

libuv error codes are the negated POSIX errno values (Linux numbering);
only their values as distinct integers matter for the reply mapping in
`client_write_error`. -/

def UV_ENETUNREACH : Int := -101

def UV_EHOSTUNREACH : Int := -113

def UV_ECONNREFUSED : Int := -111

def UV_ECANCELED : Int := -125

/-- Decoder result kinds, per specification section 4.1 and section 7
(`socks5.h` is not among the sources). -/
inductive S5Err where
  | S5_OK
  | S5_BAD_VERSION
  | S5_BAD_NMETHODS
  | S5_BAD_RSV
  | S5_UNSUPPORTED_CMD
  | S5_BAD_ATYP
deriving DecidableEq, Repr

/-- Modelled from the spec: `socks5.h` is not among the sources, so the
integer values of the `S5Err` enumerators are unknown.  They are modelled
as small non-negative integers; `local.c` only requires them to be
distinct from each other and from the (negative) libuv codes, because
`client_write_error` switches on the exact values of
`S5_UNSUPPORTED_CMD` and `S5_BAD_ATYP`. -/
def s5errCode : S5Err → Int
  | .S5_OK => 0
  | .S5_BAD_VERSION => 1
  | .S5_BAD_NMETHODS => 2
  | .S5_BAD_RSV => 3
  | .S5_UNSUPPORTED_CMD => 4
  | .S5_BAD_ATYP => 5

def S5_UNSUPPORTED_CMD_CODE : Int := s5errCode .S5_UNSUPPORTED_CMD

def S5_BAD_ATYP_CODE : Int := s5errCode .S5_BAD_ATYP

/-! ### The error reply (`client_write_error`, local.c lines 306-322)

The function builds the 10 byte buffer `{ 5, 1, 0, 1, 0, 0, 0, 0, 0, 0 }`
and then overwrites byte 1 (REP) according to the switch on `err`. -/

/-- Transcription of the `switch (err)` in `client_write_error`. -/
def client_write_error_rep (err : Int) : Nat :=
  if err = UV_ENETUNREACH then 3
  else if err = UV_EHOSTUNREACH then 4
  else if err = UV_ECONNREFUSED then 5
  else if err = S5_UNSUPPORTED_CMD_CODE then 7
  else if err = S5_BAD_ATYP_CODE then 8
  else 1

/-- The bytes handed to `client_write_string` by `client_write_error`. -/
def client_write_error_buf (err : Int) : List Nat :=
  List.set [5, 1, 0, 1, 0, 0, 0, 0, 0, 0] 1 (client_write_error_rep err)

/-- Modelled from the spec: the REP mapping table of section 4.2 / section 7,
written directly from the table (for comparison against the code). -/
def spec_rep_mapping (err : Int) : Nat :=
  if err = UV_ENETUNREACH then 3
  else if err = UV_EHOSTUNREACH then 4
  else if err = UV_ECONNREFUSED then 5
  else if err = S5_UNSUPPORTED_CMD_CODE then 7
  else if err = S5_BAD_ATYP_CODE then 8
  else 1

/-! ### The success reply (`upstream_connect_cb`, local.c lines 583-609)

On connect success the code writes `"\5\0\0\1"` and then, for an IPv4
bound address, the 4 stored address bytes followed by
`memcpy(buf.base+8, &g_server_ctx->server_cfg.port, 2)` - the first two
bytes of the in-memory representation of the `int` field `port`, i.e.
host byte order, not network byte order.  The bound address bytes were
stored in network order by `do_bind_and_listen` (memcpy from
`sin_addr.s_addr`). -/

inductive IPVersion where
  | IPV4
  | IPV6
deriving DecidableEq, Repr

/-- The fields of `ServerContext` consumed by `upstream_connect_cb`:
the bound address family, the bound address bytes (network order, as
stored by `do_bind_and_listen`), and the configured port
(`server_cfg.port`, a host-order C `int`). -/
structure ServerContext where
  bound_ip_ver : IPVersion
  bound_ip : List Nat
  port : Nat
deriving DecidableEq, Repr

inductive Endian where
  | little
  | big
deriving DecidableEq, Repr

/-- The first two bytes of the in-memory representation of a 32-bit C
`int` holding the (non-negative, < 2^31) value `p`. -/
def intFirst2Bytes (e : Endian) (p : Nat) : List Nat :=
  match e with
  | .little => [p % 256, p / 256 % 256]
  | .big => [p / 2 ^ 24 % 256, p / 2 ^ 16 % 256]

/-- The reply bytes assembled by `upstream_connect_cb` on connect
success (faithful to the code: the ATYP byte is the literal 1 from
`"\5\0\0\1"` in both branches, and the port bytes come from the raw
`int`). -/
def success_reply (e : Endian) (g : ServerContext) : List Nat :=
  match g.bound_ip_ver with
  | .IPV4 => [5, 0, 0, 1] ++ g.bound_ip.take 4 ++ intFirst2Bytes e g.port
  | .IPV6 => [5, 0, 0, 1] ++ g.bound_ip.take 16 ++ intFirst2Bytes e g.port

/-- Modelled from the spec: the success reply of section 4.2 / section 6,
with BND.PORT in network byte order (big-endian 16 bit). -/
def spec_success_reply (g : ServerContext) : List Nat :=
  match g.bound_ip_ver with
  | .IPV4 => [5, 0, 0, 1] ++ g.bound_ip.take 4 ++ [g.port / 256 % 256, g.port % 256]
  | .IPV6 => [5, 0, 0, 4] ++ g.bound_ip.take 16 ++ [g.port / 256 % 256, g.port % 256]

/-- The server context of the default configuration: bound to
127.0.0.1, port 8789 (`SERVER_HOST`, `SERVER_PORT`). -/
def g_default : ServerContext := ⟨.IPV4, [127, 0, 0, 1], 8789⟩

/-! ### Candidate iteration in `upstream_connect_domain` (local.c 538-581)

The loop walks the `addrinfo` list; for each entry of family `AF_INET`
or `AF_INET6` it calls `upstream_connect` (i.e. `uv_tcp_connect`).  If
that call returns 0 the loop RETURNS - the asynchronous outcome of that
single initiated connect then decides the session in
`upstream_connect_cb`.  Only a non-zero synchronous return advances the
loop to the next candidate.  On falling off the list the code calls
`client_write_error` with the last synchronous error.

Each candidate is modelled with the environment-chosen outcomes of the
two stages: `initRes` is the synchronous return of `uv_tcp_connect`,
and `connRes` is the status later passed to `upstream_connect_cb` if
the connect was initiated. -/

def AF_INET : Nat := 2

def AF_INET6 : Nat := 10

structure Cand where
  family : Nat
  initRes : Int
  connRes : Int
deriving DecidableEq, Repr

inductive DomainOutcome where
  /-- the session reached `upstream_connect_cb` with status >= 0 for
  this candidate: success reply, `S5_STREAMING`. -/
  | streaming (c : Cand)
  /-- `client_write_error` was called with this error code. -/
  | errReply (err : Int)
deriving DecidableEq, Repr

/-- The loop of `upstream_connect_domain`: returns the list of
candidates on which `uv_tcp_connect` was invoked, the candidate (if
any) whose initiation succeeded (on which the loop returned), and the
final value of the local variable `err`.  The second argument is the
value `err` holds before the loop (the C variable is uninitialized;
it is threaded explicitly here). -/
def upstream_connect_domain_loop : List Cand → Int → List Cand × Option Cand × Int
  | [], lastErr => ([], none, lastErr)
  | c :: rest, lastErr =>
    if c.family ≠ AF_INET ∧ c.family ≠ AF_INET6 then
      upstream_connect_domain_loop rest lastErr
    else if c.initRes = 0 then ([c], some c, lastErr)
    else
      let r := upstream_connect_domain_loop rest c.initRes
      (c :: r.1, r.2.1, r.2.2)

/-- The complete observable outcome of the domain connect path in the
code: run the loop, then (when a connect was initiated) the branch of
`upstream_connect_cb` on its asynchronous status. -/
def code_domain_result (cs : List Cand) (e0 : Int) : DomainOutcome :=
  let r := upstream_connect_domain_loop cs e0
  match r.2.1 with
  | some c => if c.connRes < 0 then .errReply c.connRes else .streaming c
  | none => .errReply r.2.2

/-- Modelled from the spec: section 4.2, "It attempts tcp_connect to
each in order; first success wins and transitions to Streaming.
Exhaustion of the list without success yields the SOCKS5 error reply
using the last error."  A candidate succeeds when its connect (both
initiation and asynchronous completion) succeeds; on any failure the
next candidate is attempted. -/
def spec_domain_result : List Cand → Int → DomainOutcome
  | [], lastErr => .errReply lastErr
  | c :: rest, lastErr =>
    if c.family ≠ AF_INET ∧ c.family ≠ AF_INET6 then
      spec_domain_result rest lastErr
    else if c.initRes = 0 ∧ 0 ≤ c.connRes then .streaming c
    else
      spec_domain_result rest (if c.initRes = 0 then c.connRes else c.initRes)

/-- Restatement of what the code actually does, as a single recursion
(the amended form of claim C3): candidates are only iterated over
synchronous initiation failures; the first candidate whose initiation
succeeds is final - its asynchronous outcome alone decides between
Streaming and the error reply. -/
def amended_domain_result : List Cand → Int → DomainOutcome
  | [], lastErr => .errReply lastErr
  | c :: rest, lastErr =>
    if c.family ≠ AF_INET ∧ c.family ≠ AF_INET6 then
      amended_domain_result rest lastErr
    else if c.initRes = 0 then
      if c.connRes < 0 then .errReply c.connRes else .streaming c
    else
      amended_domain_result rest c.initRes

/-- The concrete candidate list refuting claim C3: the first candidate
accepts the connect initiation but the asynchronous connect is refused;
the second would succeed. -/
def c3cands : List Cand :=
  [⟨AF_INET, 0, UV_ECONNREFUSED⟩, ⟨AF_INET, 0, 0⟩]

/-! ### The close / release protocol (local.c 204-249)

`close_session` stops reading on both endpoints and closes the handles;
the client close completion (`client_handle_close_cb`) schedules a zero
duration release timer (`schedule_release_timer`), whose callback
(`release_timer_cb`) closes the timer handle, and the timer close
completion (`release_timer_handle_close_cb`) frees the session.  When
`close_session` finds the client handle already closing it schedules the
release timer directly.  `release_timer_cb` also frees the session
directly when it finds the timer handle itself already closing.

The libuv semantics this code relies on are modelled explicitly:

* each handle carries a closing flag; `uv_is_closing` reads it,
  `uv_close` sets it and enqueues the close callback on the event queue;
* a pending write on a handle that gets closed is cancelled: its
  completion callback is enqueued and will run with `UV_ECANCELED`;
* `uv_timer_init` re-initializes the handle state (clearing the closing
  and active flags) but does NOT remove events already queued for the
  handle - in real libuv the handle stays in the timer heap / closing
  queue, which is exactly why re-initializing a started or closing
  timer is unsound;
* `uv_timer_start` on an inactive handle enqueues one firing of the
  timer callback (a zero timeout fires on the next loop iteration);
* callbacks run one at a time in queue order (single threaded loop).

A `free` counter replaces the two `free(sess)` calls. -/

inductive CloseEv where
  /-- the cancelled in-flight upstream write completion
  (`on_upstream_write_done` with `UV_ECANCELED`, which calls
  `close_session` because status < 0). -/
  | upstreamWriteCancel
  /-- `client_handle_close_cb` -/
  | clientCloseCb
  /-- `release_timer_cb` -/
  | timerFire
  /-- `release_timer_handle_close_cb` -/
  | timerCloseCb
deriving DecidableEq, Repr

structure CloseWorld where
  upstreamClosing : Bool
  clientClosing : Bool
  timerClosing : Bool
  timerActive : Bool
  /-- a write on the upstream endpoint is in flight (its completion
  callback has not run yet). -/
  upstreamWritePending : Bool
  /-- the event loop queue of pending callbacks, oldest first. -/
  queue : List CloseEv
  /-- number of `free(sess)` calls executed so far. -/
  frees : Nat
deriving DecidableEq, Repr

/-- `schedule_release_timer`: `uv_timer_init` (re-initializes the handle,
clearing its flags, leaving already queued events in place) followed by
`uv_timer_start(.., release_timer_cb, 0, 0)` (the handle is inactive
after init, so one firing is enqueued). -/
def schedule_release_timer (w : CloseWorld) : CloseWorld :=
  { w with timerClosing := false, timerActive := true,
           queue := w.queue ++ [.timerFire] }

/-- `close_session`: stop reading and close the upstream handle (no
close callback; a cancelled in-flight write enqueues its completion),
then close the client handle with `client_handle_close_cb` - unless it
is already closing, in which case the release timer is scheduled
directly. -/
def close_session (w : CloseWorld) : CloseWorld :=
  let w :=
    if w.upstreamClosing then w
    else
      { w with upstreamClosing := true,
               queue := w.queue ++
                 (if w.upstreamWritePending then [CloseEv.upstreamWriteCancel] else []),
               upstreamWritePending := false }
  if w.clientClosing = false then
    { w with clientClosing := true, queue := w.queue ++ [.clientCloseCb] }
  else
    schedule_release_timer w

/-- `release_timer_cb`: the timer fired (it becomes inactive); if the
timer handle is not closing, close it with
`release_timer_handle_close_cb`; otherwise free the session directly. -/
def release_timer_cb (w : CloseWorld) : CloseWorld :=
  let w := { w with timerActive := false }
  if w.timerClosing = false then
    { w with timerClosing := true, queue := w.queue ++ [.timerCloseCb] }
  else
    { w with frees := w.frees + 1 }

/-- Dispatch one dequeued callback. -/
def runCloseEv (w : CloseWorld) : CloseEv → CloseWorld
  | .upstreamWriteCancel => close_session w
  | .clientCloseCb => schedule_release_timer w
  | .timerFire => release_timer_cb w
  | .timerCloseCb => { w with frees := w.frees + 1 }

/-- Run the event loop until the queue is empty (fuel-bounded; the fuel
is consumed per processed event). -/
def runCloseLoop : Nat → CloseWorld → CloseWorld
  | 0, w => w
  | fuel + 1, w =>
    match w.queue with
    | [] => w
    | e :: q => runCloseLoop fuel (runCloseEv { w with queue := q } e)

/-- The close-protocol state of a Streaming session with an in-flight
upstream write at the moment the first `close_session` runs (e.g.
because the relay write towards the client failed). -/
def closeStart : CloseWorld :=
  { upstreamClosing := false, clientClosing := false, timerClosing := false,
    timerActive := false, upstreamWritePending := true, queue := [], frees := 0 }

/-! ### The SOCKS5 decoder

Modelled from the spec: `socks5.c` / `socks5.h` are not among the
sources.  Section 4.1 specifies two restartable entry points over
`(state, bytes)`; the accumulated byte prefix is kept in the context so
that a call after NeedMore resumes correctly. -/

inductive S5ParseState where
  | S5_PARSE_STATE_NEED_MORE_DATA
  | S5_PARSE_STATE_FINISH
deriving DecidableEq, Repr

/-- Decoder context (the `Socks5Ctx` of the code): parse sub-state, the
accumulated bytes of the current message, the offered-methods bitmap
(bit set per offered method code), and the request fields. -/
structure Socks5Ctx where
  pstate : S5ParseState
  acc : List Nat
  methods : Nat
  atyp : Nat
  dst_addr : List Nat
  dst_port : Nat
deriving DecidableEq, Repr

def Socks5Ctx.init : Socks5Ctx :=
  { pstate := .S5_PARSE_STATE_NEED_MORE_DATA, acc := [], methods := 0,
    atyp := 0, dst_addr := [], dst_port := 0 }

/-- The no-authentication method mask: method code 0x00, i.e. bit 0 of
the methods bitmap. -/
def S5_AUTH_NONE : Nat := 1

def methodsBitmap (ms : List Nat) : Nat :=
  ms.foldl (fun b m => b ||| (1 <<< m)) 0

/-- Modelled from the spec (section 4.1): consume `VER = 5`, `NMETHODS`
(1 byte, rejected when 0), then `NMETHODS` method bytes; accumulate
across partial reads; on completion record the bitmap of offered
methods.  On completion the accumulator is reset so that the same
context can then parse the request message. -/
def socks5_parse_method_identification (ctx : Socks5Ctx) (data : List Nat) :
    S5Err × Socks5Ctx :=
  let acc := ctx.acc ++ data
  let more : Socks5Ctx := { ctx with pstate := .S5_PARSE_STATE_NEED_MORE_DATA, acc := acc }
  match acc with
  | [] => (.S5_OK, more)
  | ver :: rest =>
    if ver ≠ 5 then (.S5_BAD_VERSION, more)
    else
      match rest with
      | [] => (.S5_OK, more)
      | n :: ms =>
        if n = 0 then (.S5_BAD_NMETHODS, more)
        else if ms.length < n then (.S5_OK, more)
        else
          (.S5_OK, { ctx with
                      pstate := .S5_PARSE_STATE_FINISH
                      acc := []
                      methods := methodsBitmap (ms.take n) })

/-- Modelled from the spec (section 4.1): consume `VER = 5`, `CMD`
(only 1 = CONNECT supported), `RSV = 0`, `ATYP` (1 / 3 / 4), the
address (4 bytes, a 1-byte-length-prefixed domain, or 16 bytes), and a
2 byte big-endian port; accumulate across partial reads.  Fields are
recorded as soon as their bytes are available. -/
def socks5_parse_request (ctx : Socks5Ctx) (data : List Nat) :
    S5Err × Socks5Ctx :=
  let acc := ctx.acc ++ data
  let more : Socks5Ctx := { ctx with pstate := .S5_PARSE_STATE_NEED_MORE_DATA, acc := acc }
  match acc with
  | [] => (.S5_OK, more)
  | ver :: r1 =>
    if ver ≠ 5 then (.S5_BAD_VERSION, more)
    else
      match r1 with
      | [] => (.S5_OK, more)
      | cmd :: r2 =>
        if cmd ≠ 1 then (.S5_UNSUPPORTED_CMD, more)
        else
          match r2 with
          | [] => (.S5_OK, more)
          | rsv :: r3 =>
            if rsv ≠ 0 then (.S5_BAD_RSV, more)
            else
              match r3 with
              | [] => (.S5_OK, more)
              | atyp :: r4 =>
                let more := { more with atyp := atyp }
                if atyp = 1 then
                  match r4 with
                  | a :: b :: c :: d :: p1 :: p2 :: _ =>
                    (.S5_OK, { more with
                                pstate := .S5_PARSE_STATE_FINISH
                                dst_addr := [a, b, c, d]
                                dst_port := 256 * p1 + p2 })
                  | _ => (.S5_OK, more)
                else if atyp = 4 then
                  if r4.length < 18 then (.S5_OK, more)
                  else
                    (.S5_OK, { more with
                                pstate := .S5_PARSE_STATE_FINISH
                                dst_addr := r4.take 16
                                dst_port := 256 * ((r4.drop 16).headD 0) +
                                            ((r4.drop 17).headD 0) })
                else if atyp = 3 then
                  match r4 with
                  | [] => (.S5_OK, more)
                  | n :: r5 =>
                    if r5.length < n + 2 then (.S5_OK, more)
                    else
                      (.S5_OK, { more with
                                  pstate := .S5_PARSE_STATE_FINISH
                                  dst_addr := r5.take n
                                  dst_port := 256 * ((r5.drop n).headD 0) +
                                              ((r5.drop (n + 1)).headD 0) })
                else (.S5_BAD_ATYP, more)

/-! ### The session event machine (local.c 251-640)

Each libuv completion callback of `local.c` is transcribed as a
deterministic transition on an explicit session state; the environment
chooses which enabled completion fires next and with which status.

Modelling conventions:

* `clientReading` / `upstreamReading` mirror whether `uv_read_start` is
  in effect on the endpoint (reset by the `uv_read_stop` at the top of
  the read callbacks and by `close_session`);
* in-flight writes are FIFO lists per endpoint (libuv completes writes
  of one stream in issue order); each entry records the bytes and,
  as ghost data, which kind of message it is;
* the synchronous return values of the `uv_*` calls made inside a
  callback (`uv_read_start`, `uv_write`, `uv_tcp_connect`,
  `uv_getaddrinfo`) are environment-chosen parameters of the event
  (`r1` for the first such call executed, `r2` for the second); `0`
  means accepted.  On a non-zero return the code calls `close_session`;
* `closed` records that `close_session` ran (both handles closing);
  the release machinery itself is modelled separately above;
* ghost counters: `successSent` / `successDone` count issued and
  successfully completed success replies, `relayIssued` counts relay
  writes issued in either direction.

The `upstream_connect_domain` callback is abstracted by the outcome of
its candidate loop (modelled in detail by
`upstream_connect_domain_loop` above): `status` is the `getaddrinfo`
status, `initOk` tells whether some candidate accepted the connect
initiation, `lastErr` is the final loop error otherwise. -/

inductive SessionState where
  | S5_METHOD_IDENTIFICATION
  | S5_REQUEST
  | S5_STREAMING
  | S5_STREAMING_END
deriving DecidableEq, Repr

/-- Ghost classification of an issued write. -/
inductive WKind where
  /-- the 2 byte method-selection reply `"\5\0"` -/
  | greetReply
  /-- the 2 byte rejection `"\5\xff"` -/
  | methodFail
  /-- a 10 byte SOCKS5 error reply from `client_write_error` -/
  | errReply
  /-- the SOCKS5 success reply from `upstream_connect_cb` -/
  | successReply
  /-- relayed payload -/
  | relay
deriving DecidableEq, Repr

structure WMsg where
  kind : WKind
  bytes : List Nat
deriving DecidableEq, Repr

structure World where
  state : SessionState
  s5 : Socks5Ctx
  clientReading : Bool
  upstreamReading : Bool
  clientWrites : List WMsg
  upstreamWrites : List WMsg
  connectPending : Bool
  resolvePending : Bool
  connectDoneOk : Bool
  successSent : Nat
  successDone : Nat
  relayIssued : Nat
  closed : Bool
deriving DecidableEq, Repr

/-- The session right after `on_connection_new`: fresh state
(`create_session` sets `S5_METHOD_IDENTIFICATION`), reading on the
client endpoint (`client_read_start`). -/
def World.init : World :=
  { state := .S5_METHOD_IDENTIFICATION, s5 := Socks5Ctx.init,
    clientReading := true, upstreamReading := false, clientWrites := [],
    upstreamWrites := [], connectPending := false, resolvePending := false,
    connectDoneOk := false, successSent := 0, successDone := 0,
    relayIssued := 0, closed := false }

/-- `close_session` as seen by the session machine: reads stopped on
both endpoints, both handles closing. -/
def closeSessionW (w : World) : World :=
  { w with clientReading := false, upstreamReading := false, closed := true }

/-- `client_read_start`: `uv_read_start` on the client endpoint; on a
non-zero synchronous return the code closes the session. -/
def clientReadStartW (r : Int) (w : World) : World :=
  if r = 0 then { w with clientReading := true } else closeSessionW w

/-- `upstream_read_start`. -/
def upstreamReadStartW (r : Int) (w : World) : World :=
  if r = 0 then { w with upstreamReading := true } else closeSessionW w

/-- `client_write_start` (also covering `client_write_string`): `uv_write`
on the client endpoint; the relay ghost counter is bumped for relay
messages; a non-zero synchronous return closes the session. -/
def clientWriteStartW (r : Int) (m : WMsg) (w : World) : World :=
  if r = 0 then
    { w with clientWrites := w.clientWrites ++ [m]
             relayIssued := w.relayIssued + (if m.kind = .relay then 1 else 0) }
  else closeSessionW w

/-- `upstream_write_start`. -/
def upstreamWriteStartW (r : Int) (m : WMsg) (w : World) : World :=
  if r = 0 then
    { w with upstreamWrites := w.upstreamWrites ++ [m]
             relayIssued := w.relayIssued + (if m.kind = .relay then 1 else 0) }
  else closeSessionW w

/-- `client_write_error`: set the state to `S5_STREAMING_END` (so the
write completion closes the session) and write the 10 byte error
reply. -/
def clientWriteErrorW (r : Int) (err : Int) (w : World) : World :=
  clientWriteStartW r ⟨.errReply, client_write_error_buf err⟩
    { w with state := .S5_STREAMING_END }

/-- `on_client_read_done` (local.c 361-479). -/
def onClientReadDoneW (nread : Int) (data : List Nat) (r1 r2 : Int) (w : World) :
    World :=
  if nread = 0 then w
  else
    let w := { w with clientReading := false }
    if nread < 0 then closeSessionW w
    else
      match w.state with
      | .S5_METHOD_IDENTIFICATION =>
        let pr := socks5_parse_method_identification w.s5 data
        let w := { w with s5 := pr.2 }
        if pr.1 ≠ .S5_OK then closeSessionW w
        else if pr.2.pstate = .S5_PARSE_STATE_FINISH then
          if pr.2.methods &&& S5_AUTH_NONE ≠ 0 then
            clientWriteStartW r1 ⟨.greetReply, [5, 0]⟩ { w with state := .S5_REQUEST }
          else
            clientWriteStartW r1 ⟨.methodFail, [5, 0xFF]⟩
              { w with state := .S5_STREAMING_END }
        else clientReadStartW r1 w
      | .S5_REQUEST =>
        let pr := socks5_parse_request w.s5 data
        let w := { w with s5 := pr.2 }
        if pr.1 ≠ .S5_OK then clientWriteErrorW r1 (s5errCode pr.1) w
        else if pr.2.atyp = 1 then
          if r1 = 0 then { w with connectPending := true }
          else clientWriteErrorW r2 r1 w
        else if pr.2.atyp = 3 then
          if r1 = 0 then { w with resolvePending := true }
          else clientWriteErrorW r2 r1 w
        else if pr.2.atyp = 4 then
          if r1 = 0 then { w with connectPending := true }
          else clientWriteErrorW r2 r1 w
        else clientWriteErrorW r1 20000 w
      | .S5_STREAMING => upstreamWriteStartW r1 ⟨.relay, data⟩ w
      | .S5_STREAMING_END => closeSessionW w

/-- `on_client_write_done` (local.c 342-353).  The completed request is
the oldest in-flight client write; the ghost counter `successDone` is
bumped when a success reply completes with status >= 0. -/
def onClientWriteDoneW (status : Int) (r1 r2 : Int) (w : World) : World :=
  match w.clientWrites with
  | [] => w
  | m :: rest =>
    let w := { w with
                clientWrites := rest
                successDone := w.successDone +
                  (if m.kind = .successReply ∧ 0 ≤ status then 1 else 0) }
    if status < 0 ∨ w.state = .S5_STREAMING_END then closeSessionW w
    else
      let w := clientReadStartW r1 w
      if w.state = .S5_STREAMING then upstreamReadStartW r2 w else w

/-- `on_upstream_read_done` (local.c 498-515). -/
def onUpstreamReadDoneW (nread : Int) (data : List Nat) (r1 : Int) (w : World) :
    World :=
  if nread = 0 then w
  else
    let w := { w with upstreamReading := false }
    if nread < 0 ∨ w.state = .S5_STREAMING_END then closeSessionW w
    else clientWriteStartW r1 ⟨.relay, data⟩ w

/-- `on_upstream_write_done` (local.c 528-536). -/
def onUpstreamWriteDoneW (status : Int) (r1 : Int) (w : World) : World :=
  match w.upstreamWrites with
  | [] => w
  | _ :: rest =>
    let w := { w with upstreamWrites := rest }
    if status < 0 ∨ w.state = .S5_STREAMING_END then closeSessionW w
    else clientReadStartW r1 w

/-- `upstream_connect_cb` (local.c 583-609): on failure write the error
reply; on success enter `S5_STREAMING` and write the success reply. -/
def upstreamConnectCbW (g : ServerContext) (e : Endian) (status : Int) (r1 : Int)
    (w : World) : World :=
  let w := { w with connectPending := false }
  if status < 0 then clientWriteErrorW r1 status w
  else
    let w := { w with state := .S5_STREAMING, connectDoneOk := true }
    clientWriteStartW r1 ⟨.successReply, success_reply e g⟩
      { w with successSent := w.successSent + 1 }

/-- `upstream_connect_domain` (local.c 538-581), abstracted by the
outcome of its candidate loop: on `getaddrinfo` failure write the error
reply; when some candidate accepted the connect initiation the connect
is pending; otherwise write the error reply with the last loop error. -/
def upstreamConnectDomainW (status : Int) (initOk : Bool) (lastErr : Int)
    (r1 : Int) (w : World) : World :=
  let w := { w with resolvePending := false }
  if status < 0 then clientWriteErrorW r1 status w
  else if initOk then { w with connectPending := true }
  else clientWriteErrorW r1 lastErr w

/-- The completion events the reactor can deliver to a session. -/
inductive Ev where
  | clientReadDone (nread : Int) (data : List Nat) (r1 r2 : Int)
  | upstreamReadDone (nread : Int) (data : List Nat) (r1 : Int)
  | clientWriteDone (status : Int) (r1 r2 : Int)
  | upstreamWriteDone (status : Int) (r1 : Int)
  | connectDone (status : Int) (r1 : Int)
  | resolveDone (status : Int) (initOk : Bool) (lastErr : Int) (r1 : Int)
deriving DecidableEq, Repr

/-- Dispatch one completion event. -/
def stepF (g : ServerContext) (e : Endian) (w : World) : Ev → World
  | .clientReadDone nread data r1 r2 => onClientReadDoneW nread data r1 r2 w
  | .upstreamReadDone nread data r1 => onUpstreamReadDoneW nread data r1 w
  | .clientWriteDone status r1 r2 => onClientWriteDoneW status r1 r2 w
  | .upstreamWriteDone status r1 => onUpstreamWriteDoneW status r1 w
  | .connectDone status r1 => upstreamConnectCbW g e status r1 w
  | .resolveDone status initOk lastErr r1 =>
      upstreamConnectDomainW status initOk lastErr r1 w

/-- Which events the reactor may deliver in a given state: a read
completion needs reading to be in effect, a write / connect / resolve
completion needs the corresponding operation to be outstanding; an
operation whose handle was closed completes with a negative
(cancellation) status; and when a synchronous failure inside the
callback has already closed the session, a subsequent `uv_read_start`
on the closing upstream handle cannot succeed (`r1 ≠ 0 → r2 ≠ 0`). -/
def enabledB (w : World) : Ev → Bool
  | .clientReadDone _ _ _ _ => w.clientReading
  | .upstreamReadDone _ _ _ => w.upstreamReading
  | .clientWriteDone status r1 r2 =>
      !w.clientWrites.isEmpty && (!w.closed || status < 0) && (r1 = 0 || r2 ≠ 0)
  | .upstreamWriteDone status _ => !w.upstreamWrites.isEmpty && (!w.closed || status < 0)
  | .connectDone status _ => w.connectPending && (!w.closed || status < 0)
  | .resolveDone status _ _ _ => w.resolvePending && (!w.closed || status < 0)

def enabled (w : World) (e : Ev) : Prop := enabledB w e = true

instance (w : World) (e : Ev) : Decidable (enabled w e) := by
  unfold enabled; infer_instance

/-- Reachable session states: the accept-time state, closed under
delivery of enabled events. -/
inductive Reach (g : ServerContext) (en : Endian) : World → Prop where
  | init : Reach g en World.init
  | step {w : World} {e : Ev} : Reach g en w → enabled w e → Reach g en (stepF g en w e)

/-- Run a list of events (used for concrete traces). -/
def runEvs (g : ServerContext) (en : Endian) : World → List Ev → World
  | w, [] => w
  | w, e :: es => runEvs g en (stepF g en w e) es

/-- Check that every event of a trace is enabled when it fires. -/
def traceOk (g : ServerContext) (en : Endian) : World → List Ev → Bool
  | _, [] => true
  | w, e :: es => enabledB w e && traceOk g en (stepF g en w e) es

/-! ### Concrete traces -/

/-- The request bytes of scenario S1: CONNECT 127.0.0.1:9000. -/
def reqBytesV4 : List Nat := [5, 1, 0, 1, 127, 0, 0, 1, 35, 40]

/-- The happy-path prefix: greeting (no-auth offered), greeting reply
completes, IPv4 CONNECT request, upstream connect succeeds, success
reply completes (client and upstream reads both resume). -/
def evsStreaming : List Ev :=
  [.clientReadDone 3 [5, 1, 0] 0 0,
   .clientWriteDone 0 0 0,
   .clientReadDone 10 reqBytesV4 0 0,
   .connectDone 0 0,
   .clientWriteDone 0 0 0]

def wStreaming : World := runEvs g_default .little World.init evsStreaming

/-- Continue the happy path into the backpressure violation: the client
sends a byte (relay write to upstream in flight), the upstream sends a
byte (relay write to client in flight), and the client-direction relay
write completes first - which resumes CLIENT reads although the
upstream-direction write out of the client buffer is still in
flight. -/
def evsC5 : List Ev :=
  evsStreaming ++
  [.clientReadDone 1 [65] 0 0,
   .upstreamReadDone 1 [66] 0,
   .clientWriteDone 0 0 0]

def wC5 : World := runEvs g_default .little World.init evsC5

/-- One more client read then arrives and a second write is issued on
the upstream endpoint while the first is still in flight (in the C
code this re-uses the single in-flight `upstream_write_req`). -/
def evsC5b : List Ev := evsC5 ++ [.clientReadDone 1 [67] 0 0]

def wC5b : World := runEvs g_default .little World.init evsC5b

/-- The close-protocol trace of the C1 analysis: first `close_session`
with an in-flight upstream write, then the loop drains (cancelled
upstream write completion re-enters `close_session`, the client close
callback schedules the release timer again). -/
def wCloseFinal : CloseWorld := runCloseLoop 10 (close_session closeStart)

/-- The benign close: no other in-flight activity when `close_session`
runs once. -/
def wCloseBenign : CloseWorld :=
  runCloseLoop 10 (close_session { closeStart with upstreamWritePending := false })

/-- Number of success replies among a list of in-flight writes. -/
def countS : List WMsg → Nat
  | [] => 0
  | m :: rest => (if m.kind = .successReply then 1 else 0) + countS rest

/-- Whether the oldest in-flight write is the success reply. -/
def headIsSuccess : List WMsg → Bool
  | [] => false
  | m :: _ => m.kind = .successReply

def Inv (w : World) : Prop :=
  (w.closed = true → w.clientReading = false ∧ w.upstreamReading = false) ∧
  (w.state = .S5_METHOD_IDENTIFICATION →
    w.successSent = 0 ∧ w.connectDoneOk = false ∧ w.connectPending = false ∧
    w.resolvePending = false ∧ w.upstreamReading = false ∧ w.relayIssued = 0 ∧
    w.clientWrites = []) ∧
  (w.state = .S5_REQUEST →
    w.successSent = 0 ∧ w.connectDoneOk = false ∧ w.upstreamReading = false ∧
    w.relayIssued = 0 ∧ countS w.clientWrites = 0 ∧ w.clientWrites.length ≤ 1 ∧
    (w.clientReading = true → w.clientWrites = []) ∧
    (w.connectPending = true ∨ w.resolvePending = true →
      w.clientWrites = [] ∧ w.clientReading = false)) ∧
  (w.state = .S5_STREAMING ∧ w.closed = false →
    w.successSent = 1 ∧ w.successDone + countS w.clientWrites = 1 ∧
    (countS w.clientWrites = 1 → headIsSuccess w.clientWrites = true) ∧
    w.connectPending = false ∧ w.resolvePending = false ∧
    (w.clientReading = true → w.successDone = 1)) ∧
  (w.state = .S5_STREAMING → w.connectDoneOk = true) ∧
  (1 ≤ w.relayIssued → 1 ≤ w.successDone) ∧
  (w.successDone + countS w.clientWrites ≤ w.successSent ∧ w.successSent ≤ 1) ∧
  (w.upstreamReading = true → w.successDone = 1) ∧
  (w.connectPending = true → w.state = .S5_REQUEST) ∧
  (w.resolvePending = true → w.state = .S5_REQUEST) ∧
  (¬(w.connectPending = true ∧ w.resolvePending = true)) ∧
  (w.upstreamWrites ≠ [] → w.successDone = 1)

/-- The handling of one complete greeting read: `on_client_read_done`
applied to the full method-identification message with NMETHODS =
`methods.length` (the `uv_write` initiation succeeding). -/
def greetingStep (w : World) (methods : List Nat) (r2 : Int) : World :=
  onClientReadDoneW ((5 :: methods.length :: methods).length : Int)
    (5 :: methods.length :: methods) 0 r2 w

/-- The happy path continued by one relayed client byte. -/
def evsC4 : List Ev := evsStreaming ++ [.clientReadDone 1 [65] 0 0]

def wC4 : World := runEvs g_default .little World.init evsC4

/-- The session after a successful greeting exchange: phase
`S5_REQUEST`, reading on the client endpoint. -/
def wRequestEx : World :=
  runEvs g_default .little World.init
    [.clientReadDone 3 [5, 1, 0] 0 0, .clientWriteDone 0 0 0]

/-- The session after a greeting offering only GSSAPI (scenario S2):
phase `S5_STREAMING_END` with the rejection write in flight. -/
def wEndEx : World :=
  runEvs g_default .little World.init [.clientReadDone 3 [5, 1, 2] 0 0]

example : traceOk g_default .little World.init evsC5b = true := by decide
example : wStreaming.state = .S5_STREAMING ∧ wStreaming.connectDoneOk = true ∧
    wStreaming.successDone = 1 ∧ wStreaming.clientReading = true ∧
    wStreaming.upstreamReading = true := by decide
example : wC5.clientReading = true ∧ wC5.upstreamWrites = [⟨.relay, [65]⟩] := by decide
example : wC5b.upstreamWrites.length = 2 := by decide
example : wCloseFinal.frees = 2 ∧ wCloseFinal.queue = [] := by decide
example : wCloseBenign.frees = 1 ∧ wCloseBenign.queue = [] := by decide

/-! ### The reachability invariant

The conjunction below is the inductive strengthening used to prove the
claims about the happy path ordering (claim C4): Streaming implies a
completed connect, the success reply is issued and completed exactly
once, and every relayed byte and every upstream read start happens
after that completion. -/

theorem countS_append (a b : List WMsg) : countS (a ++ b) = countS a + countS b := by
  induction a with
  | nil => simp [countS]
  | cons m rest ih => simp [countS, ih]; omega

theorem inv_init : Inv World.init := by
  unfold Inv
  refine ⟨?_, ?_, ?_, ?_, ?_, ?_, ?_, ?_, ?_, ?_, ?_, ?_⟩ <;> simp [World.init, countS]

theorem inv_closeSessionW {w : World} (h : Inv w) : Inv (closeSessionW w) := by
  obtain ⟨hA, hB, hC, hD, hE, hF, hG, hH, hI, hJ, hK, hL⟩ := h
  unfold Inv closeSessionW
  dsimp only
  refine ⟨by simp, ?_, ?_, by simp, hE, hF, hG, by simp, hI, hJ, hK, hL⟩
  · intro hs
    obtain ⟨b1, b2, b3, b4, _, b6, b7⟩ := hB hs
    exact ⟨b1, b2, b3, b4, rfl, b6, b7⟩
  · intro hs
    obtain ⟨c1, c2, _, c4, c5, c6, c7, c8⟩ := hC hs
    refine ⟨c1, c2, rfl, c4, c5, c6, by simp, ?_⟩
    intro hp
    exact ⟨(c8 hp).1, rfl⟩

theorem inv_clientReadStartW {w : World} (r : Int) (h : Inv w)
    (hcl : w.closed = false)
    (hreq : w.state = .S5_REQUEST → w.clientWrites = [] ∧
      w.connectPending = false ∧ w.resolvePending = false)
    (hstr : w.state = .S5_STREAMING → w.successDone = 1) :
    Inv (clientReadStartW r w) := by
  obtain ⟨hA, hB, hC, hD, hE, hF, hG, hH, hI, hJ, hK, hL⟩ := h
  unfold clientReadStartW
  split
  · unfold Inv
    dsimp only
    refine ⟨?_, hB, ?_, ?_, hE, hF, hG, hH, hI, hJ, hK, hL⟩
    · intro hc; rw [hcl] at hc; cases hc
    · intro hs
      obtain ⟨c1, c2, c3, c4, c5, c6, _, _⟩ := hC hs
      refine ⟨c1, c2, c3, c4, c5, c6, fun _ => (hreq hs).1, fun hp => ?_⟩
      rcases hp with hp | hp
      · rw [(hreq hs).2.1] at hp; cases hp
      · rw [(hreq hs).2.2] at hp; cases hp
    · intro hs
      obtain ⟨d1, d2, d3, d4, d5, _⟩ := hD hs
      exact ⟨d1, d2, d3, d4, d5, fun _ => hstr hs.1⟩
  · exact inv_closeSessionW ⟨hA, hB, hC, hD, hE, hF, hG, hH, hI, hJ, hK, hL⟩

theorem inv_upstreamReadStartW {w : World} (r : Int) (h : Inv w)
    (hcl : w.closed = false) (hst : w.state = .S5_STREAMING)
    (hsd : w.successDone = 1) :
    Inv (upstreamReadStartW r w) := by
  obtain ⟨hA, hB, hC, hD, hE, hF, hG, hH, hI, hJ, hK, hL⟩ := h
  unfold upstreamReadStartW
  split
  · unfold Inv
    dsimp only
    refine ⟨?_, ?_, ?_, hD, hE, hF, hG, fun _ => hsd, hI, hJ, hK, hL⟩
    · intro hc; rw [hcl] at hc; cases hc
    · intro hs; rw [hst] at hs; cases hs
    · intro hs; rw [hst] at hs; cases hs
  · exact inv_closeSessionW ⟨hA, hB, hC, hD, hE, hF, hG, hH, hI, hJ, hK, hL⟩

theorem inv_clientWriteStartW_end {w : World} (r : Int) (m : WMsg) (h : Inv w)
    (hk1 : m.kind ≠ .successReply) (hk2 : m.kind ≠ .relay)
    (hend : w.state = .S5_STREAMING_END) : Inv (clientWriteStartW r m w) := by
  obtain ⟨hA, hB, hC, hD, hE, hF, hG, hH, hI, hJ, hK, hL⟩ := h
  unfold clientWriteStartW
  split
  · unfold Inv
    dsimp only
    rw [countS_append]
    refine ⟨hA, ?_, ?_, ?_, ?_, ?_, ?_, hH, hI, hJ, hK, hL⟩
    · intro hs; rw [hend] at hs; cases hs
    · intro hs; rw [hend] at hs; cases hs
    · intro hs; obtain ⟨hs1, _⟩ := hs; rw [hend] at hs1; cases hs1
    · intro hs; rw [hend] at hs; cases hs
    · simpa [hk2] using hF
    · simpa [countS, hk1] using hG
  · exact inv_closeSessionW ⟨hA, hB, hC, hD, hE, hF, hG, hH, hI, hJ, hK, hL⟩

theorem inv_setEnd {w : World} (h : Inv w)
    (hcp : w.connectPending = false) (hrp : w.resolvePending = false) :
    Inv { w with state := .S5_STREAMING_END } := by
  obtain ⟨hA, hB, hC, hD, hE, hF, hG, hH, hI, hJ, hK, hL⟩ := h
  unfold Inv
  exact ⟨hA, by simp, by simp, by simp, by simp, hF, hG, hH,
    fun hp => absurd hp (by simp [hcp]), fun hp => absurd hp (by simp [hrp]),
    by simp [hcp], hL⟩

theorem inv_clientWriteErrorW {w : World} (r err : Int) (h : Inv w)
    (hcp : w.connectPending = false) (hrp : w.resolvePending = false) :
    Inv (clientWriteErrorW r err w) := by
  unfold clientWriteErrorW
  exact inv_clientWriteStartW_end r _ (inv_setEnd h hcp hrp) (by simp) (by simp) rfl

theorem countS_cons (m : WMsg) (rest : List WMsg) :
    countS (m :: rest) = (if m.kind = .successReply then 1 else 0) + countS rest := rfl

theorem headIsSuccess_append (a b : List WMsg) (ha : a ≠ []) :
    headIsSuccess (a ++ b) = headIsSuccess a := by
  cases a with
  | nil => exact absurd rfl ha
  | cons m rest => rfl

theorem inv_onClientReadDoneW {w : World} (nread : Int) (data : List Nat)
    (r1 r2 : Int) (h : Inv w) (hrd : w.clientReading = true) :
    Inv (onClientReadDoneW nread data r1 r2 w) := by
  have hcl : w.closed = false := by
    cases hc : w.closed
    · rfl
    · exact absurd hrd (by simp [(h.1 hc).1])
  obtain ⟨hA, hB, hC, hD, hE, hF, hG, hH, hI, hJ, hK, hL⟩ := h
  have h1 : Inv { w with clientReading := false } := by
    refine ⟨fun hc => ⟨rfl, (hA hc).2⟩, hB, ?_, ?_, hE, hF, hG, hH, hI, hJ, hK, hL⟩
    · intro hs
      obtain ⟨c1, c2, c3, c4, c5, c6, _, c8⟩ := hC hs
      exact ⟨c1, c2, c3, c4, c5, c6, fun hx => absurd hx (by simp),
             fun hp => ⟨(c8 hp).1, rfl⟩⟩
    · intro hs
      obtain ⟨d1, d2, d3, d4, d5, _⟩ := hD hs
      exact ⟨d1, d2, d3, d4, d5, fun hx => absurd hx (by simp)⟩
  unfold onClientReadDoneW
  split
  · exact ⟨hA, hB, hC, hD, hE, hF, hG, hH, hI, hJ, hK, hL⟩
  · dsimp only
    split
    · exact inv_closeSessionW h1
    · cases hs5 : w.state with
      | S5_METHOD_IDENTIFICATION =>
        obtain ⟨b1, b2, b3, b4, b5, b6, b7⟩ := hB hs5
        have h2 : Inv { w with
            state := .S5_METHOD_IDENTIFICATION
            s5 := (socks5_parse_method_identification w.s5 data).2
            clientReading := false } := by
          refine ⟨?_, fun _ => ⟨b1, b2, b3, b4, b5, b6, b7⟩, ?_, ?_, ?_, hF, hG,
            hH, ?_, ?_, ?_, hL⟩
          · intro hc; rw [hcl] at hc; cases hc
          · intro hs; cases hs
          · intro hs; obtain ⟨hs, _⟩ := hs; cases hs
          · intro hs; cases hs
          · intro hp; rw [b3] at hp; cases hp
          · intro hp; rw [b4] at hp; cases hp
          · simp [b3]
        dsimp only
        split
        · exact inv_closeSessionW h2
        · split
          · split
            · -- AUTH_NONE offered: greeting reply, phase S5_REQUEST
              have h3 : Inv { w with
                  state := .S5_REQUEST
                  s5 := (socks5_parse_method_identification w.s5 data).2
                  clientReading := false } := by
                refine ⟨?_, ?_, ?_, ?_, ?_, hF, hG, hH, fun _ => rfl, fun _ => rfl,
                  ?_, hL⟩
                · intro hc; rw [hcl] at hc; cases hc
                · intro hs; cases hs
                · refine fun _ => ⟨b1, b2, b5, b6, ?_, ?_, ?_, ?_⟩
                  · rw [b7]; rfl
                  · rw [b7]; simp
                  · intro hx; exact absurd hx (by simp)
                  · intro hp
                    rcases hp with hp | hp
                    · rw [b3] at hp; cases hp
                    · rw [b4] at hp; cases hp
                · intro hs; obtain ⟨hs, _⟩ := hs; cases hs
                · intro hs; cases hs
                · simp [b3]
              unfold clientWriteStartW
              split
              · refine ⟨?_, ?_, ?_, ?_, ?_, ?_, ?_, hH, fun _ => rfl, fun _ => rfl,
                  ?_, hL⟩
                · intro hc; rw [hcl] at hc; cases hc
                · intro hs; cases hs
                · refine fun _ => ⟨b1, b2, b5, ?_, ?_, ?_, ?_, ?_⟩
                  · simp [b6]
                  · simp [b7, countS, countS_append]
                  · simp [b7]
                  · intro hx; exact absurd hx (by simp)
                  · intro hp
                    rcases hp with hp | hp
                    · rw [b3] at hp; cases hp
                    · rw [b4] at hp; cases hp
                · intro hs; obtain ⟨hs, _⟩ := hs; cases hs
                · intro hs; cases hs
                · intro hx; simp [b6] at hx
                · simp only [countS_append, b7]
                  simp [countS]
                  omega
                · simp [b3]
              · exact inv_closeSessionW h3
            · -- AUTH_NONE not offered: rejection, phase S5_STREAMING_END
              have h3 : Inv { w with
                  state := .S5_STREAMING_END
                  s5 := (socks5_parse_method_identification w.s5 data).2
                  clientReading := false } := by
                refine ⟨?_, ?_, ?_, ?_, ?_, hF, hG, hH, ?_, ?_, ?_, hL⟩
                · intro hc; rw [hcl] at hc; cases hc
                · intro hs; cases hs
                · intro hs; cases hs
                · intro hs; obtain ⟨hs, _⟩ := hs; cases hs
                · intro hs; cases hs
                · intro hp; rw [b3] at hp; cases hp
                · intro hp; rw [b4] at hp; cases hp
                · simp [b3]
              exact inv_clientWriteStartW_end r1 _ h3 (by simp) (by simp) rfl
          · -- NeedMore: read again
            exact inv_clientReadStartW r1 h2 hcl (fun hs => by cases hs)
              (fun hs => by cases hs)
      | S5_REQUEST =>
        obtain ⟨c1, c2, c3, c4, c5, c6, c7, c8⟩ := hC hs5
        have hcw : w.clientWrites = [] := c7 hrd
        have hcpF : w.connectPending = false := by
          cases hp : w.connectPending
          · rfl
          · exact absurd hrd (by simp [(c8 (Or.inl hp)).2])
        have hrpF : w.resolvePending = false := by
          cases hp : w.resolvePending
          · rfl
          · exact absurd hrd (by simp [(c8 (Or.inr hp)).2])
        have h2 : Inv { w with
            state := .S5_REQUEST
            s5 := (socks5_parse_request w.s5 data).2
            clientReading := false } := by
          refine ⟨?_, ?_, ?_, ?_, ?_, hF, hG, hH, fun _ => rfl, fun _ => rfl, ?_, hL⟩
          · intro hc; rw [hcl] at hc; cases hc
          · intro hs; cases hs
          · exact fun _ => ⟨c1, c2, c3, c4, c5, c6, fun hx => absurd hx (by simp),
              fun _ => ⟨hcw, rfl⟩⟩
          · intro hs; obtain ⟨hs, _⟩ := hs; cases hs
          · intro hs; cases hs
          · simp [hcpF]
        dsimp only
        split
        · exact inv_clientWriteErrorW r1 _ h2 hcpF hrpF
        · split
          · split
            · -- IPv4: connect initiated
              refine ⟨?_, ?_, ?_, ?_, ?_, hF, hG, hH, fun _ => rfl, fun _ => rfl,
                ?_, hL⟩
              · intro hc; rw [hcl] at hc; cases hc
              · intro hs; cases hs
              · exact fun _ => ⟨c1, c2, c3, c4, c5, c6, fun hx => absurd hx (by simp),
                  fun _ => ⟨hcw, rfl⟩⟩
              · intro hs; obtain ⟨hs, _⟩ := hs; cases hs
              · intro hs; cases hs
              · simp [hrpF]
            · exact inv_clientWriteErrorW r2 _ h2 hcpF hrpF
          · split
            · split
              · -- domain: resolve initiated
                refine ⟨?_, ?_, ?_, ?_, ?_, hF, hG, hH, fun _ => rfl, fun _ => rfl,
                  ?_, hL⟩
                · intro hc; rw [hcl] at hc; cases hc
                · intro hs; cases hs
                · exact fun _ => ⟨c1, c2, c3, c4, c5, c6,
                    fun hx => absurd hx (by simp), fun _ => ⟨hcw, rfl⟩⟩
                · intro hs; obtain ⟨hs, _⟩ := hs; cases hs
                · intro hs; cases hs
                · simp [hcpF]
              · exact inv_clientWriteErrorW r2 _ h2 hcpF hrpF
            · split
              · split
                · -- IPv6: connect initiated
                  refine ⟨?_, ?_, ?_, ?_, ?_, hF, hG, hH, fun _ => rfl, fun _ => rfl,
                    ?_, hL⟩
                  · intro hc; rw [hcl] at hc; cases hc
                  · intro hs; cases hs
                  · exact fun _ => ⟨c1, c2, c3, c4, c5, c6,
                      fun hx => absurd hx (by simp), fun _ => ⟨hcw, rfl⟩⟩
                  · intro hs; obtain ⟨hs, _⟩ := hs; cases hs
                  · intro hs; cases hs
                  · simp [hrpF]
                · exact inv_clientWriteErrorW r2 _ h2 hcpF hrpF
              · exact inv_clientWriteErrorW r1 _ h2 hcpF hrpF
      | S5_STREAMING =>
        obtain ⟨d1, d2, d3, d4, d5, d6⟩ := hD ⟨hs5, hcl⟩
        have hsd : w.successDone = 1 := d6 hrd
        unfold upstreamWriteStartW
        dsimp only
        split
        · refine ⟨?_, ?_, ?_, ?_, fun _ => hE hs5, fun _ => le_of_eq hsd.symm, hG, hH,
            ?_, ?_, ?_, fun _ => hsd⟩
          · intro hc; rw [hcl] at hc; cases hc
          · intro hs; cases hs
          · intro hs; cases hs
          · intro hs
            exact ⟨d1, d2, d3, d4, d5, fun hx => absurd hx (by simp)⟩
          · intro hp; rw [d4] at hp; cases hp
          · intro hp; rw [d5] at hp; cases hp
          · simp [d4]
        · refine inv_closeSessionW ?_
          refine ⟨?_, ?_, ?_, ?_, fun _ => hE hs5, hF, hG, hH, ?_, ?_, ?_, hL⟩
          · intro hc; rw [hcl] at hc; cases hc
          · intro hs; cases hs
          · intro hs; cases hs
          · intro hs
            exact ⟨d1, d2, d3, d4, d5, fun hx => absurd hx (by simp)⟩
          · intro hp; rw [d4] at hp; cases hp
          · intro hp; rw [d5] at hp; cases hp
          · simp [d4]
      | S5_STREAMING_END =>
        refine inv_closeSessionW ?_
        refine ⟨?_, ?_, ?_, ?_, ?_, hF, hG, hH, ?_, ?_, hK, hL⟩
        · intro hc; rw [hcl] at hc; cases hc
        · intro hs; cases hs
        · intro hs; cases hs
        · intro hs; obtain ⟨hs, _⟩ := hs; cases hs
        · intro hs; cases hs
        · intro hp; have hq := hI hp; rw [hs5] at hq; cases hq
        · intro hp; have hq := hJ hp; rw [hs5] at hq; cases hq

theorem clientReadStartW_state (r : Int) (w : World) :
    (clientReadStartW r w).state = w.state := by
  unfold clientReadStartW closeSessionW; split <;> rfl

theorem clientReadStartW_closed_of {r : Int} (w : World) (hr : r = 0) :
    (clientReadStartW r w).closed = w.closed := by
  unfold clientReadStartW; rw [if_pos hr]

theorem clientReadStartW_successDone (r : Int) (w : World) :
    (clientReadStartW r w).successDone = w.successDone := by
  unfold clientReadStartW closeSessionW; split <;> rfl

theorem inv_onUpstreamReadDoneW {w : World} (nread : Int) (data : List Nat)
    (r1 : Int) (h : Inv w) (hrd : w.upstreamReading = true) :
    Inv (onUpstreamReadDoneW nread data r1 w) := by
  have hcl : w.closed = false := by
    cases hc : w.closed
    · rfl
    · exact absurd hrd (by simp [(h.1 hc).2])
  obtain ⟨hA, hB, hC, hD, hE, hF, hG, hH, hI, hJ, hK, hL⟩ := h
  have hsd : w.successDone = 1 := hH hrd
  have h1 : Inv { w with upstreamReading := false } := by
    refine ⟨fun hc => ⟨(hA hc).1, rfl⟩, ?_, ?_, hD, hE, hF, hG,
      fun hx => absurd hx (by simp), hI, hJ, hK, hL⟩
    · intro hs
      obtain ⟨b1, b2, b3, b4, _, b6, b7⟩ := hB hs
      exact ⟨b1, b2, b3, b4, rfl, b6, b7⟩
    · intro hs
      obtain ⟨c1, c2, _, c4, c5, c6, c7, c8⟩ := hC hs
      exact ⟨c1, c2, rfl, c4, c5, c6, c7, c8⟩
  unfold onUpstreamReadDoneW
  split
  · exact ⟨hA, hB, hC, hD, hE, hF, hG, hH, hI, hJ, hK, hL⟩
  · dsimp only
    split
    · exact inv_closeSessionW h1
    · next hne =>
      have hst : w.state = .S5_STREAMING := by
        cases hs : w.state
        · exact absurd hrd (by simp [(hB hs).2.2.2.2.1])
        · exact absurd hrd (by simp [(hC hs).2.2.1])
        · rfl
        · exact absurd (Or.inr hs) hne
      obtain ⟨d1, d2, d3, d4, d5, d6⟩ := hD ⟨hst, hcl⟩
      unfold clientWriteStartW
      dsimp only
      split
      · refine ⟨?_, ?_, ?_, ?_, hE, fun _ => le_of_eq hsd.symm, ?_,
          fun hx => absurd hx (by simp), hI, hJ, hK, hL⟩
        · intro hc; rw [hcl] at hc; cases hc
        · intro hs; rw [hst] at hs; cases hs
        · intro hs; rw [hst] at hs; cases hs
        · intro hs
          refine ⟨d1, ?_, ?_, d4, d5, d6⟩
          · rw [countS_append]
            simp only [countS]
            simp
            omega
          · intro hcnt
            rw [countS_append] at hcnt
            have hcw1 : countS w.clientWrites = 1 := by
              simpa [countS] using hcnt
            have hne2 : w.clientWrites ≠ [] := by
              intro he; rw [he] at hcw1; simp [countS] at hcw1
            rw [headIsSuccess_append _ _ hne2]
            exact d3 hcw1
        · constructor
          · rw [countS_append]
            simp only [countS]
            simp
            omega
          · exact hG.2
      · exact inv_closeSessionW h1

theorem inv_onUpstreamWriteDoneW {w : World} (status r1 : Int) (h : Inv w)
    (hcan : w.closed = true → status < 0) :
    Inv (onUpstreamWriteDoneW status r1 w) := by
  obtain ⟨hA, hB, hC, hD, hE, hF, hG, hH, hI, hJ, hK, hL⟩ := h
  unfold onUpstreamWriteDoneW
  split
  · exact ⟨hA, hB, hC, hD, hE, hF, hG, hH, hI, hJ, hK, hL⟩
  · next m rest hw =>
    have hsd : w.successDone = 1 := hL (by rw [hw]; simp)
    have h1 : Inv { w with upstreamWrites := rest } :=
      ⟨hA, hB, hC, hD, hE, hF, hG, hH, hI, hJ, hK, fun _ => hsd⟩
    dsimp only
    split
    · exact inv_closeSessionW h1
    · next hne =>
      have hcl : w.closed = false := by
        cases hc : w.closed
        · rfl
        · exact absurd (Or.inl (hcan hc)) hne
      refine inv_clientReadStartW r1 h1 hcl ?_ (fun _ => hsd)
      intro hs
      exfalso
      have c1 : w.successSent = 0 := (hC hs).1
      have hg1 := hG.1
      omega

theorem inv_upstreamConnectCbW {w : World} (g : ServerContext) (e : Endian)
    (status r1 : Int) (h : Inv w) (hpend : w.connectPending = true)
    (hcan : w.closed = true → status < 0) :
    Inv (upstreamConnectCbW g e status r1 w) := by
  obtain ⟨hA, hB, hC, hD, hE, hF, hG, hH, hI, hJ, hK, hL⟩ := h
  have hst : w.state = .S5_REQUEST := hI hpend
  obtain ⟨c1, c2, c3, c4, c5, c6, c7, c8⟩ := hC hst
  obtain ⟨hcw, hcr⟩ := c8 (Or.inl hpend)
  have hrp : w.resolvePending = false := by
    cases hp : w.resolvePending
    · rfl
    · exact absurd ⟨hpend, hp⟩ hK
  have hsd0 : w.successDone = 0 := by
    have hg1 := hG.1
    omega
  have h1 : Inv { w with connectPending := false } := by
    refine ⟨hA, ?_, ?_, ?_, hE, hF, hG, hH, ?_, hJ, by simp, hL⟩
    · intro hs; rw [hst] at hs; cases hs
    · intro hs
      refine ⟨c1, c2, c3, c4, c5, c6, c7, fun hp => ?_⟩
      rcases hp with hp | hp
      · cases hp
      · exact c8 (Or.inr hp)
    · intro hs
      have hs1 := hs.1
      rw [hst] at hs1
      cases hs1
    · intro hp; cases hp
  unfold upstreamConnectCbW
  dsimp only
  split
  · exact inv_clientWriteErrorW r1 _ h1 rfl hrp
  · next hge =>
    have hcl : w.closed = false := by
      cases hc : w.closed
      · rfl
      · exact absurd (hcan hc) hge
    unfold clientWriteStartW
    dsimp only
    split
    · -- success reply issued, phase S5_STREAMING
      refine ⟨?_, ?_, ?_, ?_, fun _ => rfl, ?_, ?_, ?_, ?_, ?_, by simp, ?_⟩
      · intro hc; rw [hcl] at hc; cases hc
      · intro hs; cases hs
      · intro hs; cases hs
      · refine fun _ => ⟨by simp [c1], ?_, ?_, rfl, hrp, ?_⟩
        · simp [hcw, countS, countS_append, hsd0]
        · intro hcnt
          simp [hcw, headIsSuccess]
        · intro hx; rw [hcr] at hx; cases hx
      · intro hx
        simp [c4] at hx
      · constructor
        · simp [hcw, countS, countS_append, hsd0, c1]
        · simp [c1]
      · intro hx; rw [c3] at hx; cases hx
      · intro hp; cases hp
      · intro hp; rw [hrp] at hp; cases hp
      · intro hne; exact absurd (hL hne) (by simp [hsd0])
    · -- synchronous uv_write failure on the success reply: session closed
      unfold closeSessionW
      dsimp only
      refine ⟨fun _ => ⟨rfl, rfl⟩, ?_, ?_, ?_, fun _ => rfl, ?_, ?_, ?_, ?_, ?_,
        by simp, ?_⟩
      · intro hs; cases hs
      · intro hs; cases hs
      · intro hs; have hs2 := hs.2; cases hs2
      · intro hx
        have hx0 : 1 ≤ w.relayIssued := hx
        omega
      · constructor
        · simp [hcw, countS, hsd0, c1]
        · simp [c1]
      · intro hx; cases hx
      · intro hp; cases hp
      · intro hp; rw [hrp] at hp; cases hp
      · intro hne; exact absurd (hL hne) (by simp [hsd0])

theorem inv_upstreamConnectDomainW {w : World} (status : Int) (initOk : Bool)
    (lastErr r1 : Int) (h : Inv w) (hpend : w.resolvePending = true) :
    Inv (upstreamConnectDomainW status initOk lastErr r1 w) := by
  obtain ⟨hA, hB, hC, hD, hE, hF, hG, hH, hI, hJ, hK, hL⟩ := h
  have hst : w.state = .S5_REQUEST := hJ hpend
  obtain ⟨c1, c2, c3, c4, c5, c6, c7, c8⟩ := hC hst
  obtain ⟨hcw, hcr⟩ := c8 (Or.inr hpend)
  have hcp : w.connectPending = false := by
    cases hp : w.connectPending
    · rfl
    · exact absurd ⟨hp, hpend⟩ hK
  have h1 : Inv { w with resolvePending := false } := by
    refine ⟨hA, ?_, ?_, ?_, hE, hF, hG, hH, hI, ?_, by simp, hL⟩
    · intro hs; rw [hst] at hs; cases hs
    · intro hs
      refine ⟨c1, c2, c3, c4, c5, c6, c7, fun hp => ?_⟩
      rcases hp with hp | hp
      · exact c8 (Or.inl hp)
      · cases hp
    · intro hs
      have hs1 := hs.1
      rw [hst] at hs1
      cases hs1
    · intro hp; cases hp
  unfold upstreamConnectDomainW
  dsimp only
  split
  · exact inv_clientWriteErrorW r1 _ h1 hcp rfl
  · split
    · -- connect initiated on some candidate
      refine ⟨hA, ?_, ?_, ?_, ?_, hF, hG, hH, ?_, ?_, ?_, hL⟩
      · intro hs; rw [hst] at hs; cases hs
      · intro hs
        exact ⟨c1, c2, c3, c4, c5, c6, c7, fun _ => ⟨hcw, hcr⟩⟩
      · intro hs
        have hs1 := hs.1
        rw [hst] at hs1
        cases hs1
      · intro hs; rw [hst] at hs; cases hs
      · intro hp; exact hst
      · intro hp; cases hp
      · simp
    · exact inv_clientWriteErrorW r1 _ h1 hcp rfl

theorem inv_onClientWriteDoneW {w : World} (status r1 r2 : Int) (h : Inv w)
    (hcan : w.closed = true → status < 0) (hr12 : r1 = 0 ∨ r2 ≠ 0) :
    Inv (onClientWriteDoneW status r1 r2 w) := by
  obtain ⟨hA, hB, hC, hD, hE, hF, hG, hH, hI, hJ, hK, hL⟩ := h
  unfold onClientWriteDoneW
  split
  · exact ⟨hA, hB, hC, hD, hE, hF, hG, hH, hI, hJ, hK, hL⟩
  · next m rest hw =>
    have hcs : countS w.clientWrites =
        (if m.kind = .successReply then 1 else 0) + countS rest := by
      rw [hw, countS_cons]
    have hd : (if m.kind = .successReply ∧ 0 ≤ status then 1 else 0) ≤
        (if m.kind = .successReply then 1 else 0) := by
      by_cases hm : m.kind = .successReply <;> by_cases h0 : (0 : Int) ≤ status <;>
        simp [hm, h0]
    dsimp only
    cases hs5 : w.state with
    | S5_METHOD_IDENTIFICATION =>
      exact absurd (hB hs5).2.2.2.2.2.2 (by rw [hw]; simp)
    | S5_REQUEST =>
      obtain ⟨c1, c2, c3, c4, c5, c6, c7, c8⟩ := hC hs5
      have hm : m.kind ≠ .successReply := by
        intro hm
        rw [hm] at hcs
        simp at hcs
        omega
      have hrest : rest = [] := by
        have hl := c6
        rw [hw] at hl
        simpa using hl
      have hcsr : countS rest = 0 := by rw [hrest]; rfl
      have hcp : w.connectPending = false := by
        cases hp : w.connectPending
        · rfl
        · exact absurd ((c8 (Or.inl hp)).1) (by rw [hw]; simp)
      have hrp : w.resolvePending = false := by
        cases hp : w.resolvePending
        · rfl
        · exact absurd ((c8 (Or.inr hp)).1) (by rw [hw]; simp)
      simp only [hm, false_and, if_false, Nat.add_zero]
      have h1 : Inv { w with
          state := .S5_REQUEST
          clientWrites := rest } := by
        refine ⟨hA, ?_, ?_, ?_, ?_, hF, ?_, hH, ?_, ?_, hK, hL⟩
        · intro hs; cases hs
        · refine fun _ => ⟨c1, c2, c3, c4, hcsr, ?_,
            fun hx => absurd (c7 hx) (by rw [hw]; simp), ?_⟩
          · rw [hrest]; simp
          · intro hp
            rcases hp with hp | hp
            · rw [hcp] at hp; cases hp
            · rw [hrp] at hp; cases hp
        · intro hs; obtain ⟨hs1, _⟩ := hs; cases hs1
        · intro hs; cases hs
        · refine ⟨?_, hG.2⟩
          show w.successDone + countS rest ≤ w.successSent
          have hg1 := hG.1
          omega
        · intro hp; exact rfl
        · intro hp; exact rfl
      split
      · exact inv_closeSessionW h1
      · next hne =>
        have hcl : w.closed = false := by
          cases hc : w.closed
          · rfl
          · exact absurd (Or.inl (hcan hc)) hne
        split
        · next hq => rw [clientReadStartW_state] at hq; cases hq
        · refine inv_clientReadStartW r1 h1 hcl (fun _ => ⟨hrest, hcp, hrp⟩)
            (fun hs => by cases hs)
    | S5_STREAMING =>
      split
      · -- write failed (status < 0): close the session
        next hcls =>
        have hstatus : status < 0 := by
          rcases hcls with hlt | hq
          · exact hlt
          · cases hq
        unfold closeSessionW
        dsimp only
        refine ⟨fun _ => ⟨rfl, rfl⟩, ?_, ?_, ?_, ?_, ?_, ?_, ?_, ?_, ?_, hK, ?_⟩
        · intro hs; cases hs
        · intro hs; cases hs
        · intro hs; obtain ⟨_, hc2⟩ := hs; cases hc2
        · intro hs; exact hE hs5
        · intro hx
          show 1 ≤ w.successDone +
            (if m.kind = .successReply ∧ 0 ≤ status then 1 else 0)
          have hx1 : 1 ≤ w.relayIssued := hx
          have hf1 := hF hx1
          omega
        · refine ⟨?_, hG.2⟩
          show w.successDone +
            (if m.kind = .successReply ∧ 0 ≤ status then 1 else 0) +
            countS rest ≤ w.successSent
          have hg1 := hG.1
          omega
        · intro hx; cases hx
        · intro hp; have hq := hI hp; rw [hs5] at hq; cases hq
        · intro hp; have hq := hJ hp; rw [hs5] at hq; cases hq
        · intro hne
          show w.successDone +
            (if m.kind = .successReply ∧ 0 ≤ status then 1 else 0) = 1
          have hsd := hL hne
          have hg1 := hG.1
          have hg2 := hG.2
          omega
      · next hne =>
        have hcl : w.closed = false := by
          cases hc : w.closed
          · rfl
          · exact absurd (Or.inl (hcan hc)) hne
        have h0 : (0 : Int) ≤ status := by
          rcases lt_or_le status 0 with hlt | hle
          · exact absurd (Or.inl hlt) hne
          · exact hle
        obtain ⟨d1, d2, d3, d4, d5, d6⟩ := hD ⟨hs5, hcl⟩
        have hcr0 : countS rest = 0 := by
          by_cases hm : m.kind = .successReply
          · rw [hm] at hcs
            simp at hcs
            omega
          · have hr0 : countS w.clientWrites = countS rest := by
              rw [hcs]; simp [hm]
            by_cases hc1 : countS w.clientWrites = 1
            · have hhd := d3 hc1
              rw [hw] at hhd
              simp [headIsSuccess, hm] at hhd
            · omega
        set dv : Nat := (if m.kind = WKind.successReply ∧ 0 ≤ status then 1 else 0)
          with hdv
        have hsum : w.successDone + dv = 1 := by
          rw [hdv]
          by_cases hm : m.kind = .successReply
          · rw [hm] at hcs
            simp at hcs
            simp [hm, h0]
            omega
          · rw [hcs] at d2
            simp [hm] at d2 ⊢
            omega
        have h1 : Inv { w with
            state := .S5_STREAMING
            clientWrites := rest
            successDone := w.successDone + dv } := by
          refine ⟨?_, ?_, ?_, ?_, ?_, ?_, ?_, ?_, ?_, ?_, hK, ?_⟩
          · intro hc; rw [hcl] at hc; cases hc
          · intro hs; cases hs
          · intro hs; cases hs
          · refine fun _ => ⟨d1, ?_, ?_, d4, d5, fun _ => hsum⟩
            · show w.successDone + dv + countS rest = 1
              omega
            · intro hq
              have hq1 : countS rest = 1 := hq
              rw [hcr0] at hq1
              cases hq1
          · intro hs; exact hE hs5
          · intro hx
            show 1 ≤ w.successDone + dv
            omega
          · refine ⟨?_, hG.2⟩
            show w.successDone + dv + countS rest ≤ w.successSent
            rw [d1]
            omega
          · intro hx; exact hsum
          · intro hp; have hq := hI hp; rw [hs5] at hq; cases hq
          · intro hp; have hq := hJ hp; rw [hs5] at hq; cases hq
          · intro hne2; exact hsum
        split
        · -- still S5_STREAMING: resume client reads and upstream reads
          rcases hr12 with hr1 | hr2
          · refine inv_upstreamReadStartW r2 (inv_clientReadStartW r1 h1 hcl
              (fun hs => by cases hs) (fun _ => hsum)) ?_ ?_ ?_
            · rw [clientReadStartW_closed_of _ hr1]; exact hcl
            · rw [clientReadStartW_state]
            · rw [clientReadStartW_successDone]; exact hsum
          · unfold upstreamReadStartW
            rw [if_neg hr2]
            exact inv_closeSessionW (inv_clientReadStartW r1 h1 hcl
              (fun hs => by cases hs) (fun _ => hsum))
        · next hq =>
          rw [clientReadStartW_state] at hq
          exact absurd rfl hq
    | S5_STREAMING_END =>
      split
      · refine inv_closeSessionW ?_
        refine ⟨hA, ?_, ?_, ?_, ?_, ?_, ?_, ?_, ?_, ?_, hK, ?_⟩
        · intro hs; cases hs
        · intro hs; cases hs
        · intro hs; obtain ⟨hs1, _⟩ := hs; cases hs1
        · intro hs; cases hs
        · intro hx
          show 1 ≤ w.successDone +
            (if m.kind = .successReply ∧ 0 ≤ status then 1 else 0)
          have hx1 : 1 ≤ w.relayIssued := hx
          have hf1 := hF hx1
          omega
        · refine ⟨?_, hG.2⟩
          show w.successDone +
            (if m.kind = .successReply ∧ 0 ≤ status then 1 else 0) +
            countS rest ≤ w.successSent
          have hg1 := hG.1
          omega
        · intro hx
          show w.successDone +
            (if m.kind = .successReply ∧ 0 ≤ status then 1 else 0) = 1
          have hsd := hH hx
          have hg1 := hG.1
          have hg2 := hG.2
          omega
        · intro hp; have hq := hI hp; rw [hs5] at hq; cases hq
        · intro hp; have hq := hJ hp; rw [hs5] at hq; cases hq
        · intro hne
          show w.successDone +
            (if m.kind = .successReply ∧ 0 ≤ status then 1 else 0) = 1
          have hsd := hL hne
          have hg1 := hG.1
          have hg2 := hG.2
          omega
      · next hne => exact absurd (Or.inr rfl) hne

theorem inv_stepF (g : ServerContext) (en : Endian) (w : World) (e : Ev)
    (h : Inv w) (he : enabled w e) : Inv (stepF g en w e) := by
  unfold enabled enabledB at he
  cases e with
  | clientReadDone nread data r1 r2 =>
    exact inv_onClientReadDoneW nread data r1 r2 h he
  | upstreamReadDone nread data r1 =>
    exact inv_onUpstreamReadDoneW nread data r1 h he
  | clientWriteDone status r1 r2 =>
    simp only [Bool.and_eq_true, Bool.or_eq_true, Bool.not_eq_true',
      decide_eq_true_eq] at he
    refine inv_onClientWriteDoneW status r1 r2 h ?_ ?_
    · intro hc
      rcases he.1.2 with hq | hq
      · rw [hc] at hq; cases hq
      · exact hq
    · rcases he.2 with hq | hq
      · exact Or.inl hq
      · exact Or.inr hq
  | upstreamWriteDone status r1 =>
    simp only [Bool.and_eq_true, Bool.or_eq_true, Bool.not_eq_true',
      decide_eq_true_eq] at he
    refine inv_onUpstreamWriteDoneW status r1 h ?_
    intro hc
    rcases he.2 with hq | hq
    · rw [hc] at hq; cases hq
    · exact hq
  | connectDone status r1 =>
    simp only [Bool.and_eq_true, Bool.or_eq_true, Bool.not_eq_true',
      decide_eq_true_eq] at he
    refine inv_upstreamConnectCbW g en status r1 h he.1 ?_
    intro hc
    rcases he.2 with hq | hq
    · rw [hc] at hq; cases hq
    · exact hq
  | resolveDone status initOk lastErr r1 =>
    simp only [Bool.and_eq_true, Bool.or_eq_true, Bool.not_eq_true',
      decide_eq_true_eq] at he
    exact inv_upstreamConnectDomainW status initOk lastErr r1 h he.1

theorem reach_inv {g : ServerContext} {en : Endian} {w : World}
    (h : Reach g en w) : Inv w := by
  induction h with
  | init => exact inv_init
  | step hr he ih => exact inv_stepF _ _ _ _ ih he

theorem reach_runEvs (g : ServerContext) (en : Endian) (evs : List Ev) (w : World)
    (h : Reach g en w) (ht : traceOk g en w evs = true) :
    Reach g en (runEvs g en w evs) := by
  induction evs generalizing w with
  | nil => exact h
  | cons e es ih =>
    simp only [traceOk, Bool.and_eq_true] at ht
    simp only [runEvs]
    exact ih _ (Reach.step h ht.1) ht.2

/-- A client write completing while the session phase is
`S5_STREAMING_END` always routes to `close_session`, whatever the
status. -/
theorem onClientWriteDoneW_closed_of_end (status q1 q2 : Int) (w : World)
    (hend : w.state = .S5_STREAMING_END) (hne : w.clientWrites ≠ []) :
    (onClientWriteDoneW status q1 q2 w).closed = true := by
  unfold onClientWriteDoneW
  cases hcw : w.clientWrites with
  | nil => exact absurd hcw hne
  | cons m rest =>
    dsimp only
    rw [if_pos (Or.inr hend)]
    rfl

theorem onUpstreamWriteDoneW_closed_of_end (status q1 : Int) (w : World)
    (hend : w.state = .S5_STREAMING_END) (hne : w.upstreamWrites ≠ []) :
    (onUpstreamWriteDoneW status q1 w).closed = true := by
  unfold onUpstreamWriteDoneW
  cases hcw : w.upstreamWrites with
  | nil => exact absurd hcw hne
  | cons m rest =>
    dsimp only
    rw [if_pos (Or.inr hend)]
    rfl

/-- C9: after the session enters `S5_STREAMING_END`, the phase never
changes, no further read is started on either endpoint and no further
write is issued; a read completion (of nonzero length) is discarded and
routes to `close_session` without being relayed; and an in-flight write
completion routes to `close_session` whether it succeeded or failed. -/
theorem c9_ending_is_terminal (g : ServerContext) (en : Endian) (w : World)
    (e : Ev) (hend : w.state = .S5_STREAMING_END)
    (hcp : w.connectPending = false) (hrp : w.resolvePending = false)
    (he : enabled w e) :
    (stepF g en w e).state = .S5_STREAMING_END
  ∧ ((stepF g en w e).clientReading = true → w.clientReading = true)
  ∧ ((stepF g en w e).upstreamReading = true → w.upstreamReading = true)
  ∧ (stepF g en w e).clientWrites.length ≤ w.clientWrites.length
  ∧ (stepF g en w e).upstreamWrites.length ≤ w.upstreamWrites.length
  ∧ (stepF g en w e).relayIssued = w.relayIssued
  ∧ (∀ nread data q1 q2, e = .clientReadDone nread data q1 q2 → nread ≠ 0 →
      (stepF g en w e).closed = true)
  ∧ (∀ nread data q1, e = .upstreamReadDone nread data q1 → nread ≠ 0 →
      (stepF g en w e).closed = true)
  ∧ (∀ status q1 q2, e = .clientWriteDone status q1 q2 →
      (stepF g en w e).closed = true)
  ∧ (∀ status q1, e = .upstreamWriteDone status q1 →
      (stepF g en w e).closed = true) := by
  unfold enabled enabledB at he
  cases e with
  | clientReadDone n d q1 q2 =>
    by_cases hn : n = 0
    · have hstep : stepF g en w (.clientReadDone n d q1 q2) = w := by
        unfold stepF onClientReadDoneW
        dsimp only
        rw [if_pos hn]
      rw [hstep]
      refine ⟨hend, fun hx => hx, fun hx => hx, le_refl _, le_refl _, rfl,
        ?_, ?_, ?_, ?_⟩
      · intro nr dd a b heq hq
        injection heq with h1 h2 h3 h4
        exact absurd (h1 ▸ hn) hq
      · intro nr dd a heq; cases heq
      · intro st a b heq; cases heq
      · intro st a heq; cases heq
    · have hstep : stepF g en w (.clientReadDone n d q1 q2) =
          closeSessionW { w with clientReading := false } := by
        unfold stepF onClientReadDoneW
        dsimp only
        rw [if_neg hn]
        split
        · rfl
        · simp only [hend]
      rw [hstep]
      refine ⟨hend, ?_, ?_, le_refl _, le_refl _, rfl, ?_, ?_, ?_, ?_⟩
      · intro hx; cases hx
      · intro hx; cases hx
      · intro _ _ _ _ _ _; rfl
      · intro _ _ _ heq; cases heq
      · intro _ _ _ heq; cases heq
      · intro _ _ heq; cases heq
  | upstreamReadDone n d q1 =>
    by_cases hn : n = 0
    · have hstep : stepF g en w (.upstreamReadDone n d q1) = w := by
        unfold stepF onUpstreamReadDoneW
        dsimp only
        rw [if_pos hn]
      rw [hstep]
      refine ⟨hend, fun hx => hx, fun hx => hx, le_refl _, le_refl _, rfl,
        ?_, ?_, ?_, ?_⟩
      · intro _ _ _ _ heq; cases heq
      · intro nread data qq1 heq hq
        injection heq with h1 h2 h3
        exact absurd (h1 ▸ hn) hq
      · intro _ _ _ heq; cases heq
      · intro _ _ heq; cases heq
    · have hstep : stepF g en w (.upstreamReadDone n d q1) =
          closeSessionW { w with upstreamReading := false } := by
        unfold stepF onUpstreamReadDoneW
        dsimp only
        rw [if_neg hn]
        rw [if_pos (Or.inr hend)]
      rw [hstep]
      refine ⟨hend, ?_, ?_, le_refl _, le_refl _, rfl, ?_, ?_, ?_, ?_⟩
      · intro hx; cases hx
      · intro hx; cases hx
      · intro _ _ _ _ heq; cases heq
      · intro _ _ _ _ _; rfl
      · intro _ _ _ heq; cases heq
      · intro _ _ heq; cases heq
  | clientWriteDone status q1 q2 =>
    simp only [Bool.and_eq_true, Bool.or_eq_true, Bool.not_eq_true',
      decide_eq_true_eq] at he
    cases hcw : w.clientWrites with
    | nil =>
      exfalso
      have hie := he.1.1
      rw [hcw] at hie
      cases hie
    | cons m rest =>
      have hstep : stepF g en w (.clientWriteDone status q1 q2) =
          closeSessionW { w with
            clientWrites := rest
            successDone := w.successDone +
              (if m.kind = .successReply ∧ 0 ≤ status then 1 else 0) } := by
        unfold stepF onClientWriteDoneW
        dsimp only
        rw [hcw]
        dsimp only
        rw [if_pos (Or.inr hend)]
      rw [hstep]
      refine ⟨hend, ?_, ?_, ?_, le_refl _, rfl, ?_, ?_, ?_, ?_⟩
      · intro hx; cases hx
      · intro hx; cases hx
      · simp [closeSessionW]
      · intro _ _ _ _ heq; cases heq
      · intro _ _ _ heq; cases heq
      · intro _ _ _ _; rfl
      · intro _ _ heq; cases heq
  | upstreamWriteDone status q1 =>
    simp only [Bool.and_eq_true, Bool.or_eq_true, Bool.not_eq_true',
      decide_eq_true_eq] at he
    cases hcw : w.upstreamWrites with
    | nil =>
      exfalso
      have hie := he.1
      rw [hcw] at hie
      cases hie
    | cons m rest =>
      have hstep : stepF g en w (.upstreamWriteDone status q1) =
          closeSessionW { w with upstreamWrites := rest } := by
        unfold stepF onUpstreamWriteDoneW
        dsimp only
        rw [hcw]
        dsimp only
        rw [if_pos (Or.inr hend)]
      rw [hstep]
      refine ⟨hend, ?_, ?_, le_refl _, ?_, rfl, ?_, ?_, ?_, ?_⟩
      · intro hx; cases hx
      · intro hx; cases hx
      · simp [closeSessionW]
      · intro _ _ _ _ heq; cases heq
      · intro _ _ _ heq; cases heq
      · intro _ _ _ heq; cases heq
      · intro _ _ _; rfl
  | connectDone status q1 =>
    exfalso
    simp only [Bool.and_eq_true, Bool.or_eq_true, Bool.not_eq_true',
      decide_eq_true_eq] at he
    have hp := he.1
    rw [hcp] at hp
    cases hp
  | resolveDone status initOk lastErr q1 =>
    exfalso
    simp only [Bool.and_eq_true, Bool.or_eq_true, Bool.not_eq_true',
      decide_eq_true_eq] at he
    have hp := he.1
    rw [hrp] at hp
    cases hp

/-- C10: in `S5_STREAMING`, a read completion of n > 0 bytes on one
endpoint issues exactly one write, of exactly the bytes read, to the
opposite endpoint: a client read becomes an upstream write and an
upstream read becomes a client write, with reading stopped on the
source endpoint and everything else untouched. -/
theorem c10_streaming_relay (w : World) (nread : Int) (data : List Nat)
    (r2 : Int) (hst : w.state = .S5_STREAMING) (hd : data ≠ [])
    (hn : nread = data.length) :
    onClientReadDoneW nread data 0 r2 w =
      { w with
          clientReading := false
          upstreamWrites := w.upstreamWrites ++ [⟨.relay, data⟩]
          relayIssued := w.relayIssued + 1 }
  ∧ onUpstreamReadDoneW nread data 0 w =
      { w with
          upstreamReading := false
          clientWrites := w.clientWrites ++ [⟨.relay, data⟩]
          relayIssued := w.relayIssued + 1 } := by
  have hlen : data.length ≠ 0 := fun hq => hd (List.length_eq_zero.mp hq)
  have hn0 : ¬(nread = 0) := by
    rw [hn]
    omega
  have hneg : ¬(nread < 0) := by
    rw [hn]
    omega
  constructor
  · unfold onClientReadDoneW
    rw [if_neg hn0]
    dsimp only
    rw [if_neg hneg]
    simp only [hst]
    unfold upstreamWriteStartW
    rw [if_pos rfl]
    simp
  · unfold onUpstreamReadDoneW
    rw [if_neg hn0]
    dsimp only
    rw [if_neg (by
      rintro (hq | hq)
      · exact hneg hq
      · rw [hst] at hq; cases hq)]
    unfold clientWriteStartW
    rw [if_pos rfl]
    simp

/-- C7: a decoder error while the phase is `S5_METHOD_IDENTIFICATION`
closes the session without writing any reply; a decoder error while the
phase is `S5_REQUEST` appends the SOCKS5 error reply (REP mapped from
the decoder error by `client_write_error`) and sets the phase to
`S5_STREAMING_END`, so that the completion of that write closes the
session. -/
theorem c7_decoder_error_paths (w : World) (nread : Int) (data : List Nat)
    (r1 r2 : Int) (hn : 0 < nread) :
    (w.state = .S5_METHOD_IDENTIFICATION →
      (socks5_parse_method_identification w.s5 data).1 ≠ .S5_OK →
      (onClientReadDoneW nread data r1 r2 w).closed = true ∧
      (onClientReadDoneW nread data r1 r2 w).clientWrites = w.clientWrites ∧
      (onClientReadDoneW nread data r1 r2 w).upstreamWrites = w.upstreamWrites)
  ∧ (w.state = .S5_REQUEST → r1 = 0 →
      (socks5_parse_request w.s5 data).1 ≠ .S5_OK →
      (onClientReadDoneW nread data r1 r2 w).state = .S5_STREAMING_END ∧
      (onClientReadDoneW nread data r1 r2 w).clientWrites = w.clientWrites ++
        [⟨.errReply,
          client_write_error_buf (s5errCode (socks5_parse_request w.s5 data).1)⟩] ∧
      (onClientReadDoneW nread data r1 r2 w).closed = w.closed ∧
      ∀ status q1 q2,
        (onClientWriteDoneW status q1 q2
          (onClientReadDoneW nread data r1 r2 w)).closed = true) := by
  have hn0 : ¬(nread = 0) := by omega
  have hneg : ¬(nread < 0) := by omega
  constructor
  · intro hmid herr
    have hstep : onClientReadDoneW nread data r1 r2 w =
        closeSessionW { w with
          clientReading := false
          s5 := (socks5_parse_method_identification w.s5 data).2 } := by
      unfold onClientReadDoneW
      rw [if_neg hn0]
      dsimp only
      rw [if_neg hneg]
      simp only [hmid]
      rw [if_pos herr]
    rw [hstep]
    exact ⟨rfl, rfl, rfl⟩
  · intro hreq hr1 herr
    have hstep : onClientReadDoneW nread data r1 r2 w =
        { w with
            clientReading := false
            s5 := (socks5_parse_request w.s5 data).2
            state := .S5_STREAMING_END
            clientWrites := w.clientWrites ++
              [⟨.errReply,
                client_write_error_buf (s5errCode (socks5_parse_request w.s5 data).1)⟩] } := by
      unfold onClientReadDoneW
      rw [if_neg hn0]
      dsimp only
      rw [if_neg hneg]
      simp only [hreq]
      rw [if_pos herr]
      unfold clientWriteErrorW clientWriteStartW
      rw [if_pos hr1]
      simp
    rw [hstep]
    refine ⟨rfl, rfl, rfl, ?_⟩
    intro status q1 q2
    exact onClientWriteDoneW_closed_of_end status q1 q2 _ rfl (by simp)

theorem and_one_ne_zero_iff_testBit (x : Nat) :
    (x &&& 1 ≠ 0) ↔ x.testBit 0 = true := by
  rw [Nat.testBit_zero, Nat.and_one_is_mod, decide_eq_true_eq]
  omega

theorem lor_shift_and_one (b m : Nat) :
    ((b ||| (1 <<< m)) &&& 1 ≠ 0) ↔ (b &&& 1 ≠ 0 ∨ m = 0) := by
  rw [and_one_ne_zero_iff_testBit, and_one_ne_zero_iff_testBit, Nat.testBit_or]
  rw [Nat.shiftLeft_eq, one_mul, Nat.testBit_two_pow]
  simp [Bool.or_eq_true, decide_eq_true_eq]

/-- The offered-methods bitmap has bit 0 set exactly when method 0x00
(no authentication) was offered. -/
theorem methodsBitmap_auth_none (ms : List Nat) :
    (methodsBitmap ms &&& S5_AUTH_NONE ≠ 0) ↔ 0 ∈ ms := by
  have hgen : ∀ b : Nat,
      ((List.foldl (fun acc m => acc ||| (1 <<< m)) b ms) &&& 1 ≠ 0) ↔
      (b &&& 1 ≠ 0 ∨ 0 ∈ ms) := by
    induction ms with
    | nil => intro b; simp
    | cons m rest ih =>
      intro b
      rw [List.foldl_cons, ih, lor_shift_and_one]
      constructor
      · rintro ((hb | hm) | hr)
        · exact Or.inl hb
        · exact Or.inr (by simp [hm])
        · exact Or.inr (List.mem_cons_of_mem _ hr)
      · rintro (hb | hmem)
        · exact Or.inl (Or.inl hb)
        · rcases List.mem_cons.mp hmem with h0 | hr
          · exact Or.inl (Or.inr h0.symm)
          · exact Or.inr hr
  unfold methodsBitmap S5_AUTH_NONE
  rw [hgen 0]
  simp

/-- Evaluation of the modelled decoder on a complete greeting. -/
theorem parse_mi_full (ctx : Socks5Ctx) (methods : List Nat)
    (hacc : ctx.acc = []) (hn1 : 1 ≤ methods.length) :
    socks5_parse_method_identification ctx (5 :: methods.length :: methods) =
      (.S5_OK, { ctx with
                  pstate := .S5_PARSE_STATE_FINISH
                  acc := []
                  methods := methodsBitmap methods }) := by
  have hn0 : methods.length ≠ 0 := by omega
  unfold socks5_parse_method_identification
  rw [hacc]
  simp [hn0, List.take_length]

/-- C8: on a completed greeting with VER = 5 and NMETHODS >= 1, if
method 0x00 is among the offered methods the server replies with
exactly the two bytes 05 00 and the phase becomes `S5_REQUEST`;
otherwise it replies with exactly 05 FF and the phase becomes
`S5_STREAMING_END`, whose write completion closes the connection. -/
theorem c8_method_negotiation (w : World) (methods : List Nat) (r2 : Int)
    (hw : w.state = .S5_METHOD_IDENTIFICATION) (hacc : w.s5.acc = [])
    (hcw0 : w.clientWrites = []) (hn1 : 1 ≤ methods.length)
    (hn255 : methods.length ≤ 255) :
    (0 ∈ methods →
      (greetingStep w methods r2).state = .S5_REQUEST ∧
      (greetingStep w methods r2).clientWrites = [⟨.greetReply, [5, 0]⟩] ∧
      (greetingStep w methods r2).closed = w.closed)
  ∧ (0 ∉ methods →
      (greetingStep w methods r2).state = .S5_STREAMING_END ∧
      (greetingStep w methods r2).clientWrites = [⟨.methodFail, [5, 0xFF]⟩] ∧
      ∀ status q1 q2,
        (onClientWriteDoneW status q1 q2 (greetingStep w methods r2)).closed
          = true) := by
  have hn0 : ¬(((5 :: methods.length :: methods).length : Int) = 0) := by
    simp only [List.length_cons]
    omega
  have hneg : ¬(((5 :: methods.length :: methods).length : Int) < 0) := by
    simp only [List.length_cons]
    omega
  have hcommon : greetingStep w methods r2 =
      if methodsBitmap methods &&& S5_AUTH_NONE ≠ 0 then
        clientWriteStartW 0 ⟨.greetReply, [5, 0]⟩
          { w with
              state := .S5_REQUEST
              s5 := { w.s5 with
                        pstate := .S5_PARSE_STATE_FINISH
                        acc := []
                        methods := methodsBitmap methods }
              clientReading := false }
      else
        clientWriteStartW 0 ⟨.methodFail, [5, 0xFF]⟩
          { w with
              state := .S5_STREAMING_END
              s5 := { w.s5 with
                        pstate := .S5_PARSE_STATE_FINISH
                        acc := []
                        methods := methodsBitmap methods }
              clientReading := false } := by
    unfold greetingStep onClientReadDoneW
    rw [if_neg hn0]
    dsimp only
    rw [if_neg hneg]
    simp only [hw]
    rw [parse_mi_full w.s5 methods hacc hn1]
    dsimp only
    rw [if_neg (show ¬(S5Err.S5_OK ≠ S5Err.S5_OK) by simp)]
    rw [if_pos rfl]
  constructor
  · intro hmem
    rw [hcommon, if_pos ((methodsBitmap_auth_none methods).mpr hmem)]
    unfold clientWriteStartW
    rw [if_pos rfl]
    refine ⟨rfl, ?_, rfl⟩
    simp [hcw0]
  · intro hnm
    rw [hcommon, if_neg (fun hq => hnm ((methodsBitmap_auth_none methods).mp hq))]
    unfold clientWriteStartW
    rw [if_pos rfl]
    refine ⟨rfl, by simp [hcw0], ?_⟩
    intro status q1 q2
    exact onClientWriteDoneW_closed_of_end status q1 q2 _ rfl (by simp)

/-- C4: in every reachable session state, being in `S5_STREAMING`
implies an earlier successful upstream connect completion; at most one
success reply ever completes; once any payload byte has been relayed in
either direction, exactly one success reply has completed towards the
client; and reading on the upstream endpoint is only ever active after
the success reply write has completed. -/
theorem c4_streaming_ordering (g : ServerContext) (en : Endian) (w : World)
    (h : Reach g en w) :
    (w.state = .S5_STREAMING → w.connectDoneOk = true)
  ∧ w.successDone ≤ 1
  ∧ (1 ≤ w.relayIssued → w.successDone = 1)
  ∧ (w.upstreamReading = true → w.successDone = 1) := by
  obtain ⟨hA, hB, hC, hD, hE, hF, hG, hH, hI, hJ, hK, hL⟩ := reach_inv h
  refine ⟨hE, by omega, ?_, hH⟩
  intro hx
  have h1 := hF hx
  omega

/-- C4 witness: a concrete reachable Streaming state with one relayed
byte, where the theorem yields the completed connect and the single
completed success reply. -/
theorem c4_streaming_ordering_witness :
    wC4.state = SessionState.S5_STREAMING ∧ 1 ≤ wC4.relayIssued ∧
    wC4.connectDoneOk = true ∧ wC4.successDone = 1 := by
  have hr : Reach g_default .little wC4 :=
    reach_runEvs g_default .little evsC4 World.init Reach.init (by decide)
  have hc := c4_streaming_ordering g_default .little wC4 hr
  exact ⟨by decide, by decide, hc.1 (by decide), hc.2.2.1 (by decide)⟩

/-- C10 witness: relaying the byte 65 read from the client in the
concrete Streaming state issues exactly the write of that byte to the
upstream endpoint. -/
theorem c10_streaming_relay_witness :
    onClientReadDoneW 1 [65] 0 0 wStreaming =
      { wStreaming with
          clientReading := false
          upstreamWrites := wStreaming.upstreamWrites ++ [⟨.relay, [65]⟩]
          relayIssued := wStreaming.relayIssued + 1 } :=
  (c10_streaming_relay wStreaming 1 [65] 0 (by decide) (by decide) (by decide)).1

/-- C7 witness: a bad-version greeting closes the session without any
reply, and an unsupported-command request produces the error reply and
the `S5_STREAMING_END` phase. -/
theorem c7_decoder_error_paths_witness :
    ((onClientReadDoneW 1 [4] 0 0 World.init).closed = true ∧
     (onClientReadDoneW 1 [4] 0 0 World.init).clientWrites = []) ∧
    ((onClientReadDoneW 10 [5, 2, 0, 1, 127, 0, 0, 1, 35, 40] 0 0 wRequestEx).state
        = SessionState.S5_STREAMING_END ∧
     (onClientReadDoneW 10 [5, 2, 0, 1, 127, 0, 0, 1, 35, 40] 0 0
        wRequestEx).clientWrites =
       [⟨.errReply, [5, 7, 0, 1, 0, 0, 0, 0, 0, 0]⟩]) := by
  have h1 := (c7_decoder_error_paths World.init 1 [4] 0 0 (by decide)).1
    rfl (by decide)
  have h2 := (c7_decoder_error_paths wRequestEx 10
    [5, 2, 0, 1, 127, 0, 0, 1, 35, 40] 0 0 (by decide)).2 (by decide) rfl (by decide)
  refine ⟨⟨h1.1, ?_⟩, h2.1, ?_⟩
  · rw [h1.2.1]
    rfl
  · rw [h2.2.1]
    rfl

/-- C8 witness: the greeting 05 01 00 yields the reply 05 00 and phase
`S5_REQUEST`; the greeting 05 01 02 (only GSSAPI offered) yields the
reply 05 FF, phase `S5_STREAMING_END`, and the write completion closes
the session. -/
theorem c8_method_negotiation_witness :
    ((greetingStep World.init [0] 0).state = SessionState.S5_REQUEST ∧
     (greetingStep World.init [0] 0).clientWrites = [⟨.greetReply, [5, 0]⟩]) ∧
    ((greetingStep World.init [2] 0).state = SessionState.S5_STREAMING_END ∧
     (greetingStep World.init [2] 0).clientWrites = [⟨.methodFail, [5, 0xFF]⟩] ∧
     (onClientWriteDoneW 0 0 0 (greetingStep World.init [2] 0)).closed = true) := by
  have h1 := (c8_method_negotiation World.init [0] 0 rfl rfl rfl (by decide)
    (by decide)).1 (by decide)
  have h2 := (c8_method_negotiation World.init [2] 0 rfl rfl rfl (by decide)
    (by decide)).2 (by decide)
  exact ⟨⟨h1.1, h1.2.1⟩, h2.1, h2.2.1, h2.2.2 0 0 0⟩

/-- C9 witness: in the concrete `S5_STREAMING_END` state reached after
the greeting 05 01 02, the completion of the rejection write closes the
session and the phase stays terminal. -/
theorem c9_ending_is_terminal_witness :
    wEndEx.state = SessionState.S5_STREAMING_END ∧
    (stepF g_default .little wEndEx (.clientWriteDone 0 0 0)).closed = true ∧
    (stepF g_default .little wEndEx (.clientWriteDone 0 0 0)).state =
      SessionState.S5_STREAMING_END := by
  have hc := c9_ending_is_terminal g_default .little wEndEx
    (.clientWriteDone 0 0 0) (by decide) (by decide) (by decide) (by decide)
  exact ⟨by decide, hc.2.2.2.2.2.2.2.2.1 0 0 0 rfl, hc.1⟩

/-- C5: the backpressure discipline claimed by the specification is
violated by the code.  On the concrete trace `evsC5` (all events
enabled), after the upstream-to-client relay write completes, client
reads are resumed while the client-to-upstream relay write is still in
flight on the upstream endpoint; one more client read then issues a
second concurrent write on the upstream endpoint (`evsC5b`), re-using
the single `upstream_write_req` of the session. -/
theorem c5_backpressure_violated :
    traceOk g_default .little World.init evsC5b = true
  ∧ wC5.upstreamWrites = [⟨.relay, [65]⟩]
  ∧ wC5.clientReading = true
  ∧ wC5b.upstreamWrites.length = 2 := by decide

/-- C6: every error reply built by `client_write_error` is the 10 byte
message VER = 5, RSV = 0, ATYP = 1, all-zero BND fields, whose REP byte
equals the specification mapping table of section 4.2 / section 7. -/
theorem c6_error_reply_mapping : ∀ err : Int,
    client_write_error_buf err =
      [5, spec_rep_mapping err, 0, 1, 0, 0, 0, 0, 0, 0] :=
  fun _ => rfl

/-- C2: the success reply built by `upstream_connect_cb` for the default
server (bound 127.0.0.1, port 8789) carries the two port bytes copied
from the host-order C `int` (55 22 on a little-endian host, 00 00 on a
big-endian host), not the network-order bytes 22 55 required by the
specification; the example bytes of the claim (22 45) match neither. -/
theorem c2_success_reply_port_bytes :
    success_reply .little g_default = [5, 0, 0, 1, 127, 0, 0, 1, 0x55, 0x22]
  ∧ success_reply .big g_default = [5, 0, 0, 1, 127, 0, 0, 1, 0, 0]
  ∧ spec_success_reply g_default = [5, 0, 0, 1, 127, 0, 0, 1, 0x22, 0x55]
  ∧ success_reply .little g_default ≠ spec_success_reply g_default
  ∧ success_reply .big g_default ≠ spec_success_reply g_default
  ∧ success_reply .little g_default ≠ [5, 0, 0, 1, 127, 0, 0, 1, 0x22, 0x45] := by
  decide

/-- C1: on the close trace of a Streaming session with an in-flight
upstream write (first `close_session` from a failed client write, then
the cancelled upstream write completion re-entering `close_session`,
then the client close callback re-arming the release timer), the
session is freed twice; the benign close frees it exactly once. -/
theorem c1_close_double_free :
    wCloseFinal.queue = [] ∧ wCloseFinal.frees = 2
  ∧ wCloseBenign.queue = [] ∧ wCloseBenign.frees = 1 := by decide

theorem upstream_connect_domain_loop_cons (c : Cand) (rest : List Cand)
    (e0 : Int) :
    upstream_connect_domain_loop (c :: rest) e0 =
      if c.family ≠ AF_INET ∧ c.family ≠ AF_INET6 then
        upstream_connect_domain_loop rest e0
      else if c.initRes = 0 then ([c], some c, e0)
      else
        (c :: (upstream_connect_domain_loop rest c.initRes).1,
         (upstream_connect_domain_loop rest c.initRes).2.1,
         (upstream_connect_domain_loop rest c.initRes).2.2) := by
  simp only [upstream_connect_domain_loop]

/-- One unfolding step of the candidate iteration of
`upstream_connect_domain` composed with `upstream_connect_cb`. -/
theorem code_domain_result_cons (c : Cand) (rest : List Cand) (e0 : Int) :
    code_domain_result (c :: rest) e0 =
      if c.family ≠ AF_INET ∧ c.family ≠ AF_INET6 then
        code_domain_result rest e0
      else if c.initRes = 0 then
        (if c.connRes < 0 then .errReply c.connRes else .streaming c)
      else code_domain_result rest c.initRes := by
  unfold code_domain_result
  rw [upstream_connect_domain_loop_cons]
  by_cases hf : c.family ≠ AF_INET ∧ c.family ≠ AF_INET6
  · rw [if_pos hf, if_pos hf]
  · rw [if_neg hf, if_neg hf]
    by_cases hi : c.initRes = 0
    · rw [if_pos hi, if_pos hi]
    · rw [if_neg hi, if_neg hi]

/-- C3 (amended): the candidate iteration only advances over synchronous
`uv_tcp_connect` initiation failures; the first candidate whose
initiation is accepted is final - its asynchronous outcome alone decides
between Streaming and the error reply - and exhaustion of initiation
failures yields the error reply with the last initiation error. -/
theorem c3_domain_iteration_amended : ∀ (cs : List Cand) (e0 : Int),
    code_domain_result cs e0 = amended_domain_result cs e0 := by
  intro cs
  induction cs with
  | nil => intro e0; rfl
  | cons c rest ih =>
    intro e0
    rw [code_domain_result_cons]
    unfold amended_domain_result
    by_cases hf : c.family ≠ AF_INET ∧ c.family ≠ AF_INET6
    · rw [if_pos hf, if_pos hf]
      exact ih e0
    · rw [if_neg hf, if_neg hf]
      by_cases hi : c.initRes = 0
      · rw [if_pos hi, if_pos hi]
      · rw [if_neg hi, if_neg hi]
        exact ih c.initRes

/-- C3 counterexample: with two usable candidates whose connects would
be attempted in order by the specification, the code initiates the
connect on the first candidate, its asynchronous failure (connection
refused) produces the error reply immediately, and the second candidate
- whose connect would succeed - is never attempted. -/
theorem c3_domain_iteration_counterexample :
    code_domain_result c3cands 0 = .errReply UV_ECONNREFUSED
  ∧ spec_domain_result c3cands 0 = .streaming ⟨AF_INET, 0, 0⟩
  ∧ code_domain_result c3cands 0 ≠ spec_domain_result c3cands 0 := by decide

end Lightning
